import Mathlib

set_option maxRecDepth 40000

/-!
Verification of the carutil asset-catalog reader against its specification.
The definitions below are a shallow embedding of the Rust sources
(`src/coreui/*.rs`, `src/assetutil.rs`, `src/bom/mod.rs`): machine
integers become `Nat` with explicit `% 2^32` where u32 wrapping matters,
byte streams become `List Nat`, fallible parsing becomes `Option`, and
panics are modelled as `none`.
-/

namespace Carutil

/-- Little-endian read of one byte. -/
def readU8 : List Nat → Option (Nat × List Nat)
| b :: rest => some (b, rest)
| [] => none

/-- Little-endian read of a u16. -/
def readU16le : List Nat → Option (Nat × List Nat)
| b0 :: b1 :: rest => some (b0 + b1 * 256, rest)
| _ => none

/-- Little-endian read of a u32. -/
def readU32le : List Nat → Option (Nat × List Nat)
| b0 :: b1 :: b2 :: b3 :: rest =>
    some (b0 + b1 * 256 + b2 * 65536 + b3 * 16777216, rest)
| _ => none

/-- Little-endian read of a u64 (used for f64 fields, kept as raw bit patterns). -/
def readU64le : List Nat → Option (Nat × List Nat)
| b0 :: b1 :: b2 :: b3 :: b4 :: b5 :: b6 :: b7 :: rest =>
    some (b0 + b1 * 2^8 + b2 * 2^16 + b3 * 2^24 + b4 * 2^32 + b5 * 2^40 +
          b6 * 2^48 + b7 * 2^56, rest)
| _ => none

/-- Big-endian read of a u16 (BOM container layer). -/
def readU16be : List Nat → Option (Nat × List Nat)
| b0 :: b1 :: rest => some (b0 * 256 + b1, rest)
| _ => none

/-- Big-endian read of a u32 (BOM container layer). -/
def readU32be : List Nat → Option (Nat × List Nat)
| b0 :: b1 :: b2 :: b3 :: rest =>
    some (b0 * 16777216 + b1 * 65536 + b2 * 256 + b3, rest)
| _ => none

/-- Read a fixed number of raw bytes (binrw `count = n`): fails at end of input. -/
def readBytes (n : Nat) (l : List Nat) : Option (List Nat × List Nat) :=
  if n ≤ l.length then some (l.take n, l.drop n) else none

/-- Match a literal magic byte sequence (binrw `magic = ...`). -/
def expectBytes : List Nat → List Nat → Option (List Nat)
| [], rest => some rest
| m :: ms, b :: bs => if b = m then expectBytes ms bs else none
| _ :: _, [] => none

/-- Little-endian encoding of a u32 value, used to build concrete test inputs. -/
def le32 (n : Nat) : List Nat :=
  [n % 256, n / 256 % 256, n / 65536 % 256, n / 16777216 % 256]

/-- Little-endian encoding of a u16 value. -/
def le16 (n : Nat) : List Nat := [n % 256, n / 256 % 256]

/-- u32 wrapping multiplication. -/
def u32mul (a b : Nat) : Nat := (a * b) % 4294967296

/-- `common::parse_padded_string`: the prefix before the first NUL byte. -/
def parsePaddedString (buffer : List Nat) : List Nat :=
  buffer.takeWhile (fun b => b ≠ 0)

/-- `coreui::rendition::CompressionType` (u32 repr enum). -/
inductive CompressionType
| Uncompressed | RLE | ZIP | LZVN | LZFSE | JPEGLZFSE | Blurred | ASTC
| PaletteImg | HEVC | DeepMapLZFSE | DeepMap2
deriving DecidableEq

/-- Discriminant values of `CompressionType` (`Uncompressed = 0 .. PaletteImg = 8 ..`). -/
def CompressionType.code : CompressionType → Nat
| .Uncompressed => 0 | .RLE => 1 | .ZIP => 2 | .LZVN => 3 | .LZFSE => 4
| .JPEGLZFSE => 5 | .Blurred => 6 | .ASTC => 7 | .PaletteImg => 8
| .HEVC => 9 | .DeepMapLZFSE => 10 | .DeepMap2 => 11

/-- `FromPrimitive`-style decoding of a `CompressionType` discriminant. -/
def CompressionType.ofNat? : Nat → Option CompressionType
| 0 => some .Uncompressed | 1 => some .RLE | 2 => some .ZIP | 3 => some .LZVN
| 4 => some .LZFSE | 5 => some .JPEGLZFSE | 6 => some .Blurred | 7 => some .ASTC
| 8 => some .PaletteImg | 9 => some .HEVC | 10 => some .DeepMapLZFSE
| 11 => some .DeepMap2 | _ => none

/-- `coreui::csi::PixelFormat` (u32 repr enum with 4-ASCII codes). -/
inductive PixelFormat
| None | ARGB | Data | Gray | JPEG
deriving DecidableEq

/-- Decode a `PixelFormat` discriminant; any other u32 is a parse failure. -/
def PixelFormat.ofNat? : Nat → Option PixelFormat
| 0 => some .None
| 0x41524742 => some .ARGB
| 0x44415441 => some .Data
| 0x47413820 => some .Gray
| 0x4A504547 => some .JPEG
| _ => none

/-- `coreui::rendition::LayoutType32` (u32 repr enum). -/
inductive LayoutType32
| TextEffect | Vector | Image | Data | ExternalLink | LayerStack
| InternalReference | PackedImage | NameList | UnknownAddObject | Texture
| TextureImage | Color | MultisizeImage | LayerReference | ContentRendition
| RecognitionObject
deriving DecidableEq

/-- Decode a `LayoutType32` discriminant; any other u32 is a parse failure. -/
def LayoutType32.ofNat? : Nat → Option LayoutType32
| 0x007 => some .TextEffect
| 0x009 => some .Vector
| 0x00C => some .Image
| 0x3E8 => some .Data
| 0x3E9 => some .ExternalLink
| 0x3EA => some .LayerStack
| 0x3EB => some .InternalReference
| 0x3EC => some .PackedImage
| 0x3ED => some .NameList
| 0x3EE => some .UnknownAddObject
| 0x3EF => some .Texture
| 0x3F0 => some .TextureImage
| 0x3F1 => some .Color
| 0x3F2 => some .MultisizeImage
| 0x3F4 => some .LayerReference
| 0x3F5 => some .ContentRendition
| 0x3F6 => some .RecognitionObject
| _ => none

/-- `coreui::rendition::Idiom` (u16 repr enum). -/
inductive Idiom
| Universal | Phone | Pad | TV | Car | Watch | Marketing
deriving DecidableEq

/-- Decode an `Idiom` discriminant. -/
def Idiom.ofNat? : Nat → Option Idiom
| 0 => some .Universal | 1 => some .Phone | 2 => some .Pad | 3 => some .TV
| 4 => some .Car | 5 => some .Watch | 6 => some .Marketing | _ => none

/-- Rust `Debug` rendering of an `Idiom`, used by the `Sizes` report strings. -/
def Idiom.debugName : Idiom → String
| .Universal => "Universal" | .Phone => "Phone" | .Pad => "Pad" | .TV => "TV"
| .Car => "Car" | .Watch => "Watch" | .Marketing => "Marketing"

/-- `coregraphics::ColorSpace`: note the Rust enum has exactly the six
variants 0..=5 and no variant for any other discriminant. -/
inductive ColorSpace
| SRGB | GrayGamma2_2 | DisplayP3 | ExtendedRangeSRGB | ExtendedLinearSRGB
| ExtendedGray
deriving DecidableEq

/-- `FromPrimitive::from_u32` for `ColorSpace`: only 0..=5 decode. -/
def ColorSpace.ofNat? : Nat → Option ColorSpace
| 0 => some .SRGB | 1 => some .GrayGamma2_2 | 2 => some .DisplayP3
| 3 => some .ExtendedRangeSRGB | 4 => some .ExtendedLinearSRGB
| 5 => some .ExtendedGray | _ => none

/-- `ColorFlags::color_space` (`src/coreui/rendition.rs`): masks the low byte
and calls `FromPrimitive::from_u32(..).unwrap()`. The `unwrap` panic on an
unlisted discriminant is modelled by `none`. -/
def ColorFlags.color_space (flags : Nat) : Option ColorSpace :=
  ColorSpace.ofNat? (flags % 256)

/-- `coregraphics::ColorModel` (u32 repr enum; 14 decodes to `AlsoRGB`). -/
inductive ColorModel
| None | RGB | Monochrome | AlsoRGB
deriving DecidableEq

/-- Decode a `ColorModel` discriminant. -/
def ColorModel.ofNat? : Nat → Option ColorModel
| 0 => some .None | 1 => some .RGB | 2 => some .Monochrome
| 14 => some .AlsoRGB | _ => none

/-- `csi::ColorModel::color_model`: the low nibble of the color-space word. -/
def colorModelOfWord (w : Nat) : Option ColorModel :=
  ColorModel.ofNat? (w % 16)

/-- `coreui::rendition::TemplateMode`. -/
inductive TemplateMode
| Automatic | Original | Template
deriving DecidableEq

/-- Decode a `TemplateMode` discriminant (`(flags >> 5) & 0x7`). -/
def TemplateMode.ofNat? : Nat → Option TemplateMode
| 0 => some .Automatic | 1 => some .Original | 2 => some .Template | _ => none

/-- `RenditionFlags::is_opaque`: bit 1 of the flags word. -/
def RenditionFlags.is_opaque (flags : Nat) : Bool :=
  flags / 2 % 2 = 1

/-- `RenditionFlags::template_rendering_mode`: bits 5..7 of the flags word. -/
def RenditionFlags.template_rendering_mode (flags : Nat) : Option TemplateMode :=
  TemplateMode.ofNat? (flags / 32 % 8)

/-- `coreui::rendition::State` enum used in the report. -/
inductive State
| Normal
deriving DecidableEq

/-- Decode a `State` discriminant. -/
def State.ofNat? : Nat → Option State
| 0 => some .Normal | _ => none

/-- `coreui::rendition::Value` enum used in the report. -/
inductive RValue
| Off | On
deriving DecidableEq

/-- Decode a `Value` discriminant. -/
def RValue.ofNat? : Nat → Option RValue
| 0 => some .Off | 1 => some .On | _ => none

/-- `coreui::rendition::AttributeType` (u32 repr enum, ordinal values). -/
inductive AttributeType
| Look | Element | Part | Size | Direction | PlaceHolder | Value | Appearance
| Dimension1 | Dimension2 | State | Layer | Scale | Unknown13
| PresentationState | Idiom | Subtype | Identifier | PreviousValue
| PreviousState | SizeClassHorizontal | SizeClassVertical | MemoryClass
| GraphicsClass | DisplayGamut | DeploymentTarget
deriving DecidableEq

/-- `coreui::tlv::EXIFOrientationValue` (u32 repr enum, 0..=8). -/
inductive EXIFOrientationValue
| None | Normal | Mirrored | Rotated180 | Rotated180Mirrored | Rotated90
| Rotated90Mirrored | Rotated270 | Rotated2700Mirrored
deriving DecidableEq

/-- Decode an `EXIFOrientationValue` discriminant. -/
def EXIFOrientationValue.ofNat? : Nat → Option EXIFOrientationValue
| 0 => some .None | 1 => some .Normal | 2 => some .Mirrored
| 3 => some .Rotated180 | 4 => some .Rotated180Mirrored | 5 => some .Rotated90
| 6 => some .Rotated90Mirrored | 7 => some .Rotated270
| 8 => some .Rotated2700Mirrored | _ => none

/-- Entry of a `SISM` multisize image set. -/
structure MultisizeImageSetEntry where
  width : Nat
  height : Nat
  index : Nat
  idiom : Idiom
deriving DecidableEq

/-- `coreui::rendition::Rendition`: the tagged rendition-body union.
f64 color components are kept as raw u64 bit patterns. -/
inductive Rendition
| Color (version : Nat) (flags : Nat) (component_count : Nat)
    (components : List Nat)
| RawData (version : Nat) (raw_data_length : Nat) (raw_data : List Nat)
| ThemeCBCK (version : Nat) (compression_type : CompressionType)
    (idk a b c : Nat) (raw_data_length : Nat) (raw_data : List Nat)
| Theme (version : Nat) (compression_type : CompressionType)
    (raw_data_length : Nat) (raw_data : List Nat)
| MultisizeImageSet (version : Nat) (sizes_count : Nat)
    (entries : List MultisizeImageSetEntry)
| Unknown (tag : Nat) (version : Nat) (raw_data_length : Nat)
    (raw_data : List Nat)
deriving DecidableEq

/-- Read `n` little-endian u64 values (the f64 color components). -/
def readU64s : Nat → List Nat → Option (List Nat × List Nat)
| 0, l => some ([], l)
| n + 1, l => do
    let (v, l) ← readU64le l
    let (vs, l) ← readU64s n l
    some (v :: vs, l)

/-- Read `n` little-endian u16 values. -/
def readU16s : Nat → List Nat → Option (List Nat × List Nat)
| 0, l => some ([], l)
| n + 1, l => do
    let (v, l) ← readU16le l
    let (vs, l) ← readU16s n l
    some (v :: vs, l)

/-- Read `n` little-endian u32 values. -/
def readU32s : Nat → List Nat → Option (List Nat × List Nat)
| 0, l => some ([], l)
| n + 1, l => do
    let (v, l) ← readU32le l
    let (vs, l) ← readU32s n l
    some (v :: vs, l)

/-- Magic bytes `b"RLOC"`. -/
def rlocMagic : List Nat := [0x52, 0x4C, 0x4F, 0x43]

/-- Magic bytes `b"DWAR"` (the `RawData` variant's on-disk magic). -/
def dwarMagic : List Nat := [0x44, 0x57, 0x41, 0x52]

/-- Magic bytes `b"MLEC"`. -/
def mlecMagic : List Nat := [0x4D, 0x4C, 0x45, 0x43]

/-- Magic bytes `b"KCBC"`. -/
def kcbcMagic : List Nat := [0x4B, 0x43, 0x42, 0x43]

/-- Magic bytes `b"SISM"`. -/
def sismMagic : List Nat := [0x53, 0x49, 0x53, 0x4D]

/-- Parse the `Color` (`RLOC`) variant. -/
def parseColorV (bytes : List Nat) : Option (Rendition × List Nat) := do
  let l ← expectBytes rlocMagic bytes
  let (version, l) ← readU32le l
  let (flags, l) ← readU32le l
  let (component_count, l) ← readU32le l
  let (components, l) ← readU64s component_count l
  some (.Color version flags component_count components, l)

/-- Parse the `RawData` (`DWAR`) variant. -/
def parseRawDataV (bytes : List Nat) : Option (Rendition × List Nat) := do
  let l ← expectBytes dwarMagic bytes
  let (version, l) ← readU32le l
  let (n, l) ← readU32le l
  let (raw, l) ← readBytes n l
  some (.RawData version n raw, l)

/-- Parse the nested `ThemeCBCK` (`MLEC` with inner `KCBC`) variant: the
`KCBC` magic is matched after the u32 field that follows the compression
field. -/
def parseThemeCBCKV (bytes : List Nat) : Option (Rendition × List Nat) := do
  let l ← expectBytes mlecMagic bytes
  let (version, l) ← readU32le l
  let (craw, l) ← readU32le l
  let compression ← CompressionType.ofNat? craw
  let (idk, l) ← readU32le l
  let l ← expectBytes kcbcMagic l
  let (a, l) ← readU32le l
  let (b, l) ← readU32le l
  let (c, l) ← readU32le l
  let (n, l) ← readU32le l
  let (raw, l) ← readBytes n l
  some (.ThemeCBCK version compression idk a b c n raw, l)

/-- Parse the plain `Theme` (`MLEC`) variant. -/
def parseThemeV (bytes : List Nat) : Option (Rendition × List Nat) := do
  let l ← expectBytes mlecMagic bytes
  let (version, l) ← readU32le l
  let (craw, l) ← readU32le l
  let compression ← CompressionType.ofNat? craw
  let (n, l) ← readU32le l
  let (raw, l) ← readBytes n l
  some (.Theme version compression n raw, l)

/-- Parse one `MultisizeImageSetEntry`. -/
def parseSISMEntry (l : List Nat) : Option (MultisizeImageSetEntry × List Nat) := do
  let (w, l) ← readU32le l
  let (h, l) ← readU32le l
  let (i, l) ← readU16le l
  let (idraw, l) ← readU16le l
  let idiom ← Idiom.ofNat? idraw
  some (⟨w, h, i, idiom⟩, l)

/-- Read `n` multisize entries. -/
def readSISMEntries : Nat → List Nat → Option (List MultisizeImageSetEntry × List Nat)
| 0, l => some ([], l)
| n + 1, l => do
    let (e, l) ← parseSISMEntry l
    let (es, l) ← readSISMEntries n l
    some (e :: es, l)

/-- Parse the `MultisizeImageSet` (`SISM`) variant. -/
def parseSISMV (bytes : List Nat) : Option (Rendition × List Nat) := do
  let l ← expectBytes sismMagic bytes
  let (version, l) ← readU32le l
  let (count, l) ← readU32le l
  let (entries, l) ← readSISMEntries count l
  some (.MultisizeImageSet version count entries, l)

/-- Parse the catch-all `Unknown` variant (any 4-byte tag). -/
def parseUnknownV (bytes : List Nat) : Option (Rendition × List Nat) := do
  let (tag, l) ← readU32le bytes
  let (version, l) ← readU32le l
  let (n, l) ← readU32le l
  let (raw, l) ← readBytes n l
  some (.Unknown tag version n raw, l)

/-- binrw parsing of the `Rendition` enum: the variants are attempted in
declaration order from the same start position, falling through on failure
(`Color`, `RawData`, `ThemeCBCK`, `Theme`, `MultisizeImageSet`, `Unknown`). -/
def RenditionRead (bytes : List Nat) : Option (Rendition × List Nat) :=
  (parseColorV bytes).or ((parseRawDataV bytes).or ((parseThemeCBCKV bytes).or
    ((parseThemeV bytes).or ((parseSISMV bytes).or (parseUnknownV bytes)))))

/-- `coreui::rendition::QuantizedImage`: the LZFSE-decompressed palette image. -/
structure QuantizedImage where
  version : Nat
  color_count : Nat
  color_table : List Nat
  data : List Nat
deriving DecidableEq

/-- Parse a `QuantizedImage` (magic `0xCAFEF00D`, then version, color count,
BGRA color table, and `width * height / 2` packed u16 index words, the
arithmetic being u32). -/
def parseQuantizedImage (width height : Nat) (bytes : List Nat) :
    Option (QuantizedImage × List Nat) := do
  let l ← expectBytes [0x0D, 0xF0, 0xFE, 0xCA] bytes
  let (version, l) ← readU32le l
  let (color_count, l) ← readU16le l
  let (color_table, l) ← readU32s color_count l
  let (data, l) ← readU16s (u32mul width height / 2) l
  some (⟨version, color_count, color_table, data⟩, l)

/-- Bounds-checked single-element update of a byte buffer; `none` models the
Rust index-out-of-range panic. -/
def setAt : List Nat → Nat → Nat → Option (List Nat)
| [], _, _ => none
| _ :: rest, 0, v => some (v :: rest)
| x :: rest, j + 1, v => (setAt rest j v).map (fun l => x :: l)

/-- The loop body of `QuantizedImage::extract`: for each data word, the high
byte indexes the first pixel's palette entry and the low byte the second;
each pixel is written as `R = byte1, G = byte2, B = byte3, A = byte0` of the
BGRA u32 palette entry. `none` models a panic (palette index or buffer
position out of range). -/
def quantLoop (ct : List Nat) : List Nat → Nat → List Nat → Option (List Nat)
| [], _, buffer => some buffer
| v :: rest, i, buffer =>
    match ct[v >>> 8]?, ct[v &&& 255]? with
    | some ca, some cb =>
        (setAt buffer (8 * i) ((ca >>> 8) &&& 255)).bind fun buffer =>
        (setAt buffer (8 * i + 1) ((ca >>> 16) &&& 255)).bind fun buffer =>
        (setAt buffer (8 * i + 2) ((ca >>> 24) &&& 255)).bind fun buffer =>
        (setAt buffer (8 * i + 3) (ca &&& 255)).bind fun buffer =>
        (setAt buffer (8 * i + 4) ((cb >>> 8) &&& 255)).bind fun buffer =>
        (setAt buffer (8 * i + 5) ((cb >>> 16) &&& 255)).bind fun buffer =>
        (setAt buffer (8 * i + 6) ((cb >>> 24) &&& 255)).bind fun buffer =>
        (setAt buffer (8 * i + 7) (cb &&& 255)).bind fun buffer =>
        quantLoop ct rest (i + 1) buffer
    | _, _ => none

/-- `QuantizedImage::extract` applied to the `width * height * 4` zero buffer
allocated in `Header::extract` (u32 arithmetic for the allocation size). -/
def quantImageExtract (width height : Nat) (q : QuantizedImage) : Option (List Nat) :=
  quantLoop q.color_table q.data 0
    (List.replicate (u32mul (u32mul width height) 4) 0)

/-- `coreui::csi::Metadata` (mod time, layout, 128-byte padded name). -/
structure Metadata where
  mod_time : Nat
  layout : LayoutType32
  name : List Nat
deriving DecidableEq

/-- `coreui::csi::BitmapList`. -/
structure BitmapList where
  tlv_length : Nat
  unknown : Nat
  zero : Nat
  rendition_length : Nat
deriving DecidableEq

/-- `coreui::csi::Header`: the per-rendition CSI record. `rendition_flags`
and `color_space` are kept as raw u32 words, as in the source. -/
structure Header where
  version : Nat
  rendition_flags : Nat
  width : Nat
  height : Nat
  scale_factor : Nat
  pixel_format : PixelFormat
  color_space : Nat
  csimetadata : Metadata
  csibitmaplist : BitmapList
  tlv_data : List Nat
  rendition_data : Rendition
deriving DecidableEq

/-- Magic bytes `b"ISTC"`. -/
def istcMagic : List Nat := [0x49, 0x53, 0x54, 0x43]

/-- Parse the six u32 words following the CSI magic and version. -/
def parseHeaderWords (bytes : List Nat) : Option ((Nat × Nat × Nat × Nat × Nat × Nat) × List Nat) := do
  let (version, l) ← readU32le bytes
  let (flags, l) ← readU32le l
  let (width, l) ← readU32le l
  let (height, l) ← readU32le l
  let (scale_factor, l) ← readU32le l
  let (pfRaw, l) ← readU32le l
  some ((version, flags, width, height, scale_factor, pfRaw), l)

/-- Parse the CSI metadata block (mod time, layout, 128-byte name). -/
def parseMetadata (bytes : List Nat) : Option (Metadata × List Nat) := do
  let (mod_time, l) ← readU32le bytes
  let (layoutRaw, l) ← readU32le l
  let layout ← LayoutType32.ofNat? layoutRaw
  let (name, l) ← readBytes 128 l
  some (⟨mod_time, layout, name⟩, l)

/-- Parse the CSI bitmap list block (four u32 words). -/
def parseBitmapList (bytes : List Nat) : Option (BitmapList × List Nat) := do
  let (tlv_length, l) ← readU32le bytes
  let (unknown, l) ← readU32le l
  let (zr, l) ← readU32le l
  let (rendition_length, l) ← readU32le l
  some (⟨tlv_length, unknown, zr, rendition_length⟩, l)

/-- Byte-level parse of a CSI `Header`: the 184-byte fixed prefix, then
`tlv_length` bytes of TLV data, then the rendition body. -/
def parseHeader (bytes : List Nat) : Option (Header × List Nat) := do
  let l ← expectBytes istcMagic bytes
  let ((version, flags, width, height, scale_factor, pfRaw), l) ← parseHeaderWords l
  let pf ← PixelFormat.ofNat? pfRaw
  let (cs, l) ← readU32le l
  let (md, l) ← parseMetadata l
  let (bml, l) ← parseBitmapList l
  let (tlv_data, l) ← readBytes bml.tlv_length l
  let (rendition, l) ← RenditionRead l
  some (⟨version, flags, width, height, scale_factor, pf, cs, md, bml,
         tlv_data, rendition⟩, l)

/-- `coreui::tlv::RenditionType`: the TLV records of the CSI data area.
f32 blend/opacity values are kept as raw u32 bit patterns. -/
inductive RenditionType
| Slices (length idk0 idk1 idk2 height width : Nat)
| Metrics (length idk0 idk1 idk2 idk3 idk4 height width : Nat)
| BlendModeAndOpacity (length blend opacity : Nat)
| UTI (length string_length padding : Nat) (string : List Nat)
| EXIFOrientation (length : Nat) (orientation : EXIFOrientationValue)
| IDK (length : Nat) (data : List Nat)
| Unknown (tag : Nat) (length : Nat) (data : List Nat)
deriving DecidableEq

/-- Parse the `Slices` TLV variant (magic `0x3E9`). -/
def parseSlicesT (bytes : List Nat) : Option (RenditionType × List Nat) := do
  let l ← expectBytes (le32 0x3E9) bytes
  let (length, l) ← readU32le l
  let (idk0, l) ← readU32le l
  let (idk1, l) ← readU32le l
  let (idk2, l) ← readU32le l
  let (height, l) ← readU32le l
  let (width, l) ← readU32le l
  some (.Slices length idk0 idk1 idk2 height width, l)

/-- Parse the `Metrics` TLV variant (magic `0x3EB`). -/
def parseMetricsT (bytes : List Nat) : Option (RenditionType × List Nat) := do
  let l ← expectBytes (le32 0x3EB) bytes
  let (length, l) ← readU32le l
  let (idk0, l) ← readU32le l
  let (idk1, l) ← readU32le l
  let (idk2, l) ← readU32le l
  let (idk3, l) ← readU32le l
  let (idk4, l) ← readU32le l
  let (height, l) ← readU32le l
  let (width, l) ← readU32le l
  some (.Metrics length idk0 idk1 idk2 idk3 idk4 height width, l)

/-- Parse the `BlendModeAndOpacity` TLV variant (magic `0x3EC`). -/
def parseBlendT (bytes : List Nat) : Option (RenditionType × List Nat) := do
  let l ← expectBytes (le32 0x3EC) bytes
  let (length, l) ← readU32le l
  let (blend, l) ← readU32le l
  let (opacity, l) ← readU32le l
  some (.BlendModeAndOpacity length blend opacity, l)

/-- Parse the `UTI` TLV variant (magic `0x3ED`). -/
def parseUTIT (bytes : List Nat) : Option (RenditionType × List Nat) := do
  let l ← expectBytes (le32 0x3ED) bytes
  let (length, l) ← readU32le l
  let (string_length, l) ← readU32le l
  let (padding, l) ← readU32le l
  let (string, l) ← readBytes string_length l
  some (.UTI length string_length padding string, l)

/-- Parse the `EXIFOrientation` TLV variant (magic `0x3EE`). -/
def parseEXIFT (bytes : List Nat) : Option (RenditionType × List Nat) := do
  let l ← expectBytes (le32 0x3EE) bytes
  let (length, l) ← readU32le l
  let (oraw, l) ← readU32le l
  let orientation ← EXIFOrientationValue.ofNat? oraw
  some (.EXIFOrientation length orientation, l)

/-- Parse the `IDK` TLV variant (magic `0x3EF`). -/
def parseIDKT (bytes : List Nat) : Option (RenditionType × List Nat) := do
  let l ← expectBytes (le32 0x3EF) bytes
  let (length, l) ← readU32le l
  let (data, l) ← readBytes length l
  some (.IDK length data, l)

/-- Parse the catch-all TLV variant (any tag). -/
def parseUnknownT (bytes : List Nat) : Option (RenditionType × List Nat) := do
  let (tag, l) ← readU32le bytes
  let (length, l) ← readU32le l
  let (data, l) ← readBytes length l
  some (.Unknown tag length data, l)

/-- binrw parsing of `RenditionType`, variants in declaration order. -/
def renditionTypeRead (bytes : List Nat) : Option (RenditionType × List Nat) :=
  (parseSlicesT bytes).or ((parseMetricsT bytes).or ((parseBlendT bytes).or
    ((parseUTIT bytes).or ((parseEXIFT bytes).or ((parseIDKT bytes).or
      (parseUnknownT bytes))))))

/-- The `while let Ok(..)` loop of `Header::properties`, with explicit fuel.
Every successful TLV parse consumes at least 8 bytes, so fuel
`bytes.length + 1` never runs out before the parser fails. -/
def propsLoop : Nat → List Nat → List RenditionType
| 0, _ => []
| fuel + 1, bytes =>
    match renditionTypeRead bytes with
    | none => []
    | some (t, rest) => t :: propsLoop fuel rest

/-- `Header::properties`: iterate TLV records over the `tlv_data` area. -/
def Header.properties (h : Header) : List RenditionType :=
  propsLoop (h.tlv_data.length + 1) h.tlv_data

/-- A rendition key: the 18 u16 slots of `rendition::Key` (36 bytes on disk). -/
def RKey : Type := List Nat

instance : DecidableEq RKey := by
  unfold RKey
  infer_instance

/-- Parse a rendition key: 18 little-endian u16 values. -/
def parseKey (bytes : List Nat) : Option (RKey × List Nat) :=
  readU16s 18 bytes

/-- Lexicographic comparison of key slot lists, matching the derived `Ord`
of the Rust `[u16; 18]` key array (element-wise three-way comparison). -/
def lexCompare : List Nat → List Nat → Ordering
| [], [] => .eq
| [], _ :: _ => .lt
| _ :: _, [] => .gt
| a :: as_, b :: bs =>
    if a < b then .lt
    else if b < a then .gt
    else lexCompare as_ bs

/-- `BTreeMap::insert` on the sorted association-list model: replaces the
binding when the key is already present. -/
def btInsert {V : Type} : List (List Nat × V) → List Nat → V → List (List Nat × V)
| [], k, v => [(k, v)]
| (k0, v0) :: rest, k, v =>
    match lexCompare k k0 with
    | .lt => (k, v) :: (k0, v0) :: rest
    | .eq => (k, v) :: rest
    | .gt => (k0, v0) :: btInsert rest k v

/-- `Vec<(K, V)>::into_iter().collect::<BTreeMap<K, V>>()`: later bindings
for the same key replace earlier ones. -/
def btreeCollect {V : Type} (l : List (List Nat × V)) : List (List Nat × V) :=
  l.foldl (fun m p => btInsert m p.1 p.2) []

/-- `BTreeMap::get` on the association-list model. -/
def btreeFind {V : Type} (m : List (List Nat × V)) (k : List Nat) : Option V :=
  (m.find? (fun p => p.1 = k)).map (fun p => p.2)

/-- `HashMap::insert`: replace an existing binding in place, else add one. -/
def hmInsert (l : List (Nat × List Nat)) (k : Nat) (v : List Nat) :
    List (Nat × List Nat) :=
  if l.any (fun p => p.1 = k) then
    l.map (fun p => if p.1 = k then (k, v) else p)
  else l ++ [(k, v)]

/-- `collect::<HashMap<u16, String>>()`: later bindings replace earlier ones. -/
def hashMapCollect (ps : List (Nat × List Nat)) : List (Nat × List Nat) :=
  ps.foldl (fun m p => hmInsert m p.1 p.2) []

/-- `HashMap::get` on the association-list model. -/
def hmFind (m : List (Nat × List Nat)) (k : Nat) : Option (List Nat) :=
  (m.find? (fun p => p.1 = k)).map (fun p => p.2)

/-- `rendition::KeyFormat` (`tmfk` block), structure level. -/
structure KeyFormat where
  version : Nat
  max_count : Nat
  attribute_types : List AttributeType

/-- `KeyFormat::map`: zip the attribute-type vector with the key slots
(`zip` truncates to the shorter of the two, as in Rust). -/
def KeyFormat.map (kf : KeyFormat) (key : RKey) : List (AttributeType × Nat) :=
  kf.attribute_types.zip key

/-- `rendition::Attribute` of a key token. -/
structure Attribute where
  name : AttributeType
  value : Nat
deriving DecidableEq

/-- `rendition::KeyToken` of a facet. -/
structure KeyToken where
  cursor_hotspot : Nat × Nat
  number_of_attributes : Nat
  attributes : List Attribute

/-- `CarHeader` (`CARHEADER` block), structure level; strings are raw
NUL-padded byte arrays. -/
structure CarHeader where
  magic : Nat
  core_ui_version : Nat
  storage_version : Nat
  storage_timestamp : Nat
  rendition_count : Nat
  main_version_string : List Nat
  version_string : List Nat
  uuid : List Nat
  associated_checksum : Nat
  schema_version : Nat
  color_space_id : Nat
  key_semantics : Nat

/-- The timestamp repair in `CarUtilAssetStorage::from`: a zero
`storage_timestamp` is replaced by the file's modification time; a nonzero
value is kept. The substitution is total and cannot fail. -/
def repairStorageTimestamp (h : CarHeader) (file_timestamp : Nat) : CarHeader :=
  if h.storage_timestamp = 0 then
    { h with storage_timestamp := file_timestamp }
  else h

/-- `CarExtendedMetadata` (`EXTENDED_METADATA` block). -/
structure CarExtendedMetadata where
  magic : Nat
  thinning_arguments : List Nat
  deployment_platform_version : List Nat
  deployment_platform : List Nat
  authoring_tool : List Nat

/-- `CommonAssetStorage`, structure level: the collected databases. -/
structure CommonAssetStorage where
  header : CarHeader
  extended_metadata : CarExtendedMetadata
  renditionkeyfmt : KeyFormat
  rendition_sha_digests : List (RKey × List Nat)
  imagedb : Option (List (RKey × Header))
  facetkeysdb : List (List Nat × KeyToken)
  bitmapkeydb : Option (List (Nat × List Nat))
  appearancedb : Option (List (List Nat × Nat))

/-- One uppercase hex digit. -/
def hexDigit (n : Nat) : Char :=
  if n < 10 then Char.ofNat (48 + n) else Char.ofNat (55 + n)

/-- `encode_hex_upper` of a byte vector: two uppercase hex digits per byte. -/
def hexUpper (bytes : List Nat) : List Char :=
  bytes.flatMap (fun b => [hexDigit (b / 16 % 16), hexDigit (b % 16)])

/-- The bytes of the literal `"UTI-Unknown"`. -/
def utiUnknown : List Nat := [85, 84, 73, 45, 85, 110, 107, 110, 111, 119, 110]

/-- The `"{w}x{h} index:{i} idiom:{idiom:?}"` string of a `Sizes` row. -/
def sizeRowString (e : MultisizeImageSetEntry) : String :=
  toString e.width ++ "x" ++ toString e.height ++ " index:" ++ toString e.index
    ++ " idiom:" ++ e.idiom.debugName

/-- `assetutil::AssetUtilEntry`: one rendition row of the report. Byte-string
fields are kept as byte lists; the digest is kept as its hex character list. -/
structure AssetUtilEntry where
  appearance : Option (List Nat)
  asset_type : Option String
  bits_per_component : Option Nat
  color_components : Option (List Nat)
  color_model : Option ColorModel
  colorspace : Option ColorSpace
  compression : Option CompressionType
  data_length : Option Nat
  encoding : Option PixelFormat
  idiom : Option Idiom
  name : Option (List Nat)
  name_identifier : Option Nat
  is_opaque : Option Bool
  pixel_height : Option Nat
  pixel_width : Option Nat
  rendition_name : Option (List Nat)
  scale : Option Nat
  sha1_digest : Option (List Char)
  size_on_disk : Option Nat
  sizes : Option (List String)
  state : Option State
  template_mode : Option TemplateMode
  uti : Option (List Nat)
  value : Option RValue

/-- `AssetUtilEntry::from_csi_header` (`src/assetutil.rs`): derive one report
row from a CSI header, the resolved facet name, the key attribute/value
pairs, the stored digest bytes, and the appearance database. -/
def AssetUtilEntry.from_csi_header (csi : Header) (facet_key : Option (List Nat))
    (rkv : List (AttributeType × Nat)) (sha_digest : List Nat)
    (appearancedb : List (List Nat × Nat)) : AssetUtilEntry :=
  let layout := csi.csimetadata.layout
  let appearance : Option (List Nat) := rkv.findSome? (fun p =>
    if p.1 = .Appearance then
      appearancedb.findSome? (fun q =>
        if 0 < p.2 ∧ q.2 = p.2 then some q.1 else none)
    else none)
  let asset_type : Option String :=
    match layout with
    | .Color => some "Color"
    | .Data => some "Data"
    | .Image => some "Image"
    | .MultisizeImage => some "MultiSized Image"
    | _ => none
  let bits_per_component : Option Nat :=
    match layout with
    | .Image => some 8
    | _ => none
  let color_components : Option (List Nat) :=
    match csi.rendition_data with
    | .Color _ _ _ components => some components
    | _ => none
  let color_model : Option ColorModel :=
    match layout with
    | .Image => colorModelOfWord csi.color_space
    | _ => none
  let colorspace : Option ColorSpace :=
    match csi.rendition_data with
    | .Theme _ _ _ _ | .ThemeCBCK _ _ _ _ _ _ _ _ | .Color _ _ _ _ =>
        match color_model with
        | some .Monochrome => some .GrayGamma2_2
        | _ => some .SRGB
    | _ => none
  let compression : Option CompressionType :=
    match csi.rendition_data with
    | .Theme _ ct _ _ => some ct
    | .ThemeCBCK _ ct _ _ _ _ _ _ => some ct
    | .RawData _ _ _ =>
        match layout with
        | .Data => some .Uncompressed
        | _ => none
    | _ => none
  let data_length : Option Nat :=
    match csi.rendition_data with
    | .RawData _ n _ =>
        match layout with
        | .Data => some n
        | _ => none
    | _ => none
  let encoding : Option PixelFormat :=
    match layout with
    | .Image => some csi.pixel_format
    | _ => none
  let idiom : Option Idiom :=
    (rkv.find? (fun p => p.1 = .Idiom)).bind (fun p => Idiom.ofNat? p.2)
  let name_identifier : Option Nat :=
    (rkv.find? (fun p => p.1 = .Identifier)).map (fun p => p.2)
  let is_opaque : Option Bool :=
    match layout with
    | .Image => some ( RenditionFlags.is_opaque csi.rendition_flags)
    | _ => none
  let pixel_height0 : Option Nat :=
    match layout with
    | .Image => some csi.height
    | _ => none
  let pixel_height : Option Nat :=
    if pixel_height0 = some 0 then
      csi.properties.findSome? (fun t =>
        match t with
        | .Slices _ _ _ _ h _ => some h
        | _ => none)
    else pixel_height0
  let pixel_width0 : Option Nat :=
    match layout with
    | .Image => some csi.width
    | _ => none
  let pixel_width : Option Nat :=
    if pixel_width0 = some 0 then
      csi.properties.findSome? (fun t =>
        match t with
        | .Slices _ _ _ _ _ w => some w
        | _ => none)
    else pixel_width0
  let rendition_name : Option (List Nat) :=
    match layout with
    | .Image => some (parsePaddedString csi.csimetadata.name)
    | _ => none
  let scale : Option Nat :=
    if csi.scale_factor = 0 then some 1 else some (csi.scale_factor / 100)
  let sha1_digest : Option (List Char) := some (hexUpper sha_digest)
  let size_on_disk : Option Nat :=
    some ((184 + csi.csibitmaplist.tlv_length
           + csi.csibitmaplist.rendition_length) % 4294967296)
  let sizes : Option (List String) :=
    match csi.rendition_data with
    | .MultisizeImageSet _ _ entries => some (entries.map sizeRowString)
    | _ => none
  let state : Option State :=
    rkv.findSome? (fun p => if p.1 = .State then State.ofNat? p.2 else none)
  let template_mode : Option TemplateMode :=
    match layout with
    | .Image =>
        match csi.rendition_data with
        | .Theme _ ct _ _ =>
            if ct = .PaletteImg then
              RenditionFlags.template_rendering_mode csi.rendition_flags
            else if is_opaque = some true then
              RenditionFlags.template_rendering_mode csi.rendition_flags
            else none
        | .ThemeCBCK _ ct _ _ _ _ _ _ =>
            if ct = .PaletteImg then
              RenditionFlags.template_rendering_mode csi.rendition_flags
            else if is_opaque = some true then
              RenditionFlags.template_rendering_mode csi.rendition_flags
            else none
        | _ =>
            if is_opaque = some true then
              RenditionFlags.template_rendering_mode csi.rendition_flags
            else none
    | _ => none
  let value : Option RValue :=
    rkv.findSome? (fun p => if p.1 = .Value then RValue.ofNat? p.2 else none)
  let uti : Option (List Nat) :=
    match layout with
    | .Data =>
        some ((csi.properties.findSome? (fun t =>
          match t with
          | .UTI _ _ _ s => some (parsePaddedString s)
          | _ => none)).getD utiUnknown)
    | _ => none
  { appearance := appearance
    asset_type := asset_type
    bits_per_component := bits_per_component
    color_components := color_components
    color_model := color_model
    colorspace := colorspace
    compression := compression
    data_length := data_length
    encoding := encoding
    idiom := idiom
    name := facet_key
    name_identifier := name_identifier
    is_opaque := is_opaque
    pixel_height := pixel_height
    pixel_width := pixel_width
    rendition_name := rendition_name
    scale := scale
    sha1_digest := sha1_digest
    size_on_disk := size_on_disk
    sizes := sizes
    state := state
    template_mode := template_mode
    uti := uti
    value := value }

/-- `AssetUtilEntry::entries_from_asset_storage`: build the facet-name map,
then derive one report row per `imagedb` rendition (none when `imagedb` is
absent). -/
def entriesFromAssetStorage (st : CommonAssetStorage) : List AssetUtilEntry :=
  let nameMap := hashMapCollect (st.facetkeysdb.filterMap (fun p =>
    (p.2.attributes.find? (fun a => a.name = .Identifier)).map
      (fun a => (a.value, p.1))))
  match st.imagedb with
  | none => []
  | some db =>
      db.map (fun p =>
        let rkv := st.renditionkeyfmt.map p.1
        let nid := (rkv.find? (fun q => q.1 = .Identifier)).map (fun q => q.2)
        let facet := nid.bind (fun n => hmFind nameMap n)
        let sha := (btreeFind st.rendition_sha_digests p.1).getD []
        AssetUtilEntry.from_csi_header p.2 facet rkv sha
          (st.appearancedb.getD []))

/-- Contents of a file written by `Header::extract`: either the verbatim raw
bytes or a PNG encoding (external collaborator) of an RGBA buffer. -/
inductive FileData
| raw (bytes : List Nat)
| png (width height : Nat) (rgba : List Nat)
deriving DecidableEq

/-- Outcome of `Header::extract`: a written file, one of the `anyhow` error
returns, or the silent `Ok(())` taken for every non-`Image` layout. -/
inductive ExtractResult
| wrote (name : List Nat) (contents : FileData)
| errDecode
| errUnhandledCompression
| errUnhandledImageType
| skipped
deriving DecidableEq

/-- `Header::extract` (`src/coreui/csi.rs`): only the `Image` layout is
inspected; a `RawData` body is written verbatim, a plain `Theme` body with
`PaletteImg` compression goes through LZFSE decode (`lz`, the external
collaborator), quantized-image parse and palette expansion into a PNG; other
`Image` bodies return errors; every other layout returns `Ok(())` without
writing. The outer `none` models a panic inside the palette expansion. -/
def Header.extract (lz : List Nat → Option (List Nat)) (h : Header) :
    Option ExtractResult :=
  match h.csimetadata.layout with
  | .Image =>
      match h.rendition_data with
      | .RawData _ _ raw => some (.wrote (parsePaddedString h.csimetadata.name) (.raw raw))
      | .Theme _ ct _ raw =>
          match ct with
          | .PaletteImg =>
              match lz raw with
              | none => some .errDecode
              | some dec =>
                  match parseQuantizedImage h.width h.height dec with
                  | none => some .errDecode
                  | some (qi, _) =>
                      match quantImageExtract h.width h.height qi with
                      | none => none
                      | some buf =>
                          some (.wrote (parsePaddedString h.csimetadata.name)
                                 (.png h.width h.height buf))
          | _ => some .errUnhandledCompression
      | _ => some .errUnhandledImageType
  | _ => some .skipped

/-- `bom::BlockRange`: one (address, length) entry of the block table. -/
structure BlockRange where
  address : Nat
  length : Nat
deriving DecidableEq

/-- `bom::PathIndices`: one (index0, index1) pair of a `Paths` block. -/
structure PathIndices where
  index0 : Nat
  index1 : Nat
deriving DecidableEq

/-- `bom::Paths`: a tree node (big-endian): leaf flag, pair count, sibling
links, and the (index0, index1) pairs. -/
structure Paths where
  is_leaf : Nat
  count : Nat
  forward : Nat
  backward : Nat
  indices : List PathIndices
deriving DecidableEq

/-- Read `n` big-endian `PathIndices` pairs. -/
def readPathIndices : Nat → List Nat → Option (List PathIndices × List Nat)
| 0, l => some ([], l)
| n + 1, l => do
    let (i0, l) ← readU32be l
    let (i1, l) ← readU32be l
    let (rest, l) ← readPathIndices n l
    some (⟨i0, i1⟩ :: rest, l)

/-- Byte-level parse of a `Paths` block (big-endian). -/
def parsePaths (bytes : List Nat) : Option (Paths × List Nat) := do
  let (is_leaf, l) ← readU16be bytes
  let (count, l) ← readU16be l
  let (forward, l) ← readU32be l
  let (backward, l) ← readU32be l
  let (indices, l) ← readPathIndices count l
  some (⟨is_leaf, count, forward, backward, indices⟩, l)

/-- `bom::Tree`: a named index record. -/
structure Tree where
  version : Nat
  path_block_id : Nat
  block_size : Nat
  path_count : Nat
  unknown3 : Nat
deriving DecidableEq

/-- `Tree::items` (`src/bom/mod.rs`): look up the `Paths` block of the tree
in the block table, parse it, and yield each pair as `(index1, index0)`
("key is index1"). No check of `is_leaf` is performed. -/
def Tree.items (storage : List BlockRange) (file : List Nat) (t : Tree) :
    Option (List (Nat × Nat)) := do
  let range ← storage[t.path_block_id]?
  let (paths, _) ← parsePaths (file.drop range.address)
  some (paths.indices.map (fun i => (i.index1, i.index0)))

/-- The bytes of a block: `BlockRange::read` seeks to `address` and reads
exactly `length` bytes, failing when the mapped file is too short. -/
def blockRead (file : List Nat) (r : BlockRange) : Option (List Nat) :=
  if r.length ≤ (file.drop r.address).length then
    some ((file.drop r.address).take r.length)
  else none

/-- `length` bytes of the file starting at `addr` (what a successful
`BlockRange::read` returns). -/
def sliceAt (file : List Nat) (addr length : Nat) : List Nat :=
  (file.drop addr).take length

/-- One step of `rendition_sha_digests` (`car_util_asset_storage.rs`): the
key block (forced to 36 bytes) parses to the rendition key, the value
block's declared `(address, length)` range is read and hashed with the
external `sha` collaborator. Index, parse and read failures (panics or
propagated errors in Rust) are collapsed to `none`. -/
def shaDigestForIndex (sha : List Nat → List Nat) (storage : List BlockRange)
    (file : List Nat) (idx : PathIndices) : Option (RKey × List Nat) := do
  let kr ← storage[idx.index1]?
  let (key, _) ← parseKey ((file.drop kr.address).take 36)
  let vr ← storage[idx.index0]?
  let value ← blockRead file vr
  some (key, sha value)

/-- `rendition_sha_digests`: one digest per `Paths` pair, collected into the
`BTreeMap` keyed by the 36-byte rendition key. -/
def renditionShaDigests (sha : List Nat → List Nat) (storage : List BlockRange)
    (file : List Nat) (idxs : List PathIndices) : Option (List (RKey × List Nat)) :=
  (idxs.mapM (shaDigestForIndex sha storage file)).map btreeCollect

/-- `Tree::items_typed::<Key, Header>` over the `RENDITIONS` pairs: parse the
key block as a rendition key and the value block as a CSI header (both reads
are unbounded from the block's address). -/
def renditionsItemsTyped (storage : List BlockRange) (file : List Nat)
    (idxs : List PathIndices) : Option (List (RKey × Header)) :=
  idxs.mapM (fun idx => do
    let kr ← storage[idx.index1]?
    let (key, _) ← parseKey (file.drop kr.address)
    let vr ← storage[idx.index0]?
    let (hdr, _) ← parseHeader (file.drop vr.address)
    some (key, hdr))

/-- The `imagedb` construction: the typed `RENDITIONS` items collected into
the `BTreeMap` keyed by the 36-byte rendition key; an entry appearing later
in `Paths` order replaces an earlier entry with the same key. -/
def imagedbOf (entries : List (RKey × Header)) : List (RKey × Header) :=
  btreeCollect entries

/-- A 196-byte CSI record used as concrete test input: `Data` layout, empty
TLV area, and a 12-byte `Unknown` rendition body, so
`184 + tlv_length + rendition_length = 196`. -/
def istcDemoBytes : List Nat :=
  istcMagic ++ le32 1 ++ le32 0 ++ le32 0 ++ le32 0 ++ le32 0 ++ le32 0
    ++ le32 0 ++ (le32 0 ++ le32 0x3E8 ++ List.replicate 128 0)
    ++ (le32 0 ++ le32 1 ++ le32 0 ++ le32 12)
    ++ (le32 0 ++ le32 0 ++ le32 0)

/-- Concrete file: a 36-byte all-zero key block followed by the CSI record. -/
def demoFile : List Nat := List.replicate 36 0 ++ istcDemoBytes

/-- The all-zero rendition key parsed from the demo key block. -/
def demoKey : RKey := List.replicate 18 0

/-- Block table whose value block length (8) differs from the CSI record
size (196). -/
def demoStorage : List BlockRange := [⟨0, 36⟩, ⟨36, 8⟩]

/-- Block table whose value block length equals the CSI record size. -/
def demoStorageOk : List BlockRange := [⟨0, 36⟩, ⟨36, 196⟩]

/-- The `RENDITIONS` pair pointing at the demo blocks (value = block 1,
key = block 0). -/
def demoIdx : PathIndices := ⟨1, 0⟩

/-- A stand-in hash collaborator that records the length of its input,
separating inputs of different lengths. -/
def lenSha (l : List Nat) : List Nat := [l.length]

/-- The CSI header parsed from `istcDemoBytes`. -/
def demoHeader : Header :=
  ⟨1, 0, 0, 0, 0, .None, 0, ⟨0, .Data, List.replicate 128 0⟩,
   ⟨0, 1, 0, 12⟩, [], .Unknown 0 0 0 []⟩

/-- A `Data`-layout CSI header with a `RawData` body (name `"MyText"`). -/
def c1DataHeader : Header :=
  ⟨1, 0, 0, 0, 0, .Data, 0,
   ⟨0, .Data, [77, 121, 84, 101, 120, 116] ++ List.replicate 122 0⟩,
   ⟨0, 1, 0, 22⟩, [], .RawData 1 5 [1, 2, 3, 4, 5]⟩

/-- The same header with `Image` layout. -/
def c1ImageHeader : Header :=
  ⟨1, 0, 0, 0, 0, .Data, 0,
   ⟨0, .Image, [77, 121, 84, 101, 120, 116] ++ List.replicate 122 0⟩,
   ⟨0, 1, 0, 22⟩, [], .RawData 1 5 [1, 2, 3, 4, 5]⟩

/-- An `Image`-layout header with a non-palette `Theme` body. -/
def c1ThemeHeader : Header :=
  ⟨1, 0, 0, 0, 0, .Data, 0,
   ⟨0, .Image, [77, 121, 84, 101, 120, 116] ++ List.replicate 122 0⟩,
   ⟨0, 1, 0, 22⟩, [], .Theme 1 .LZFSE 2 [9, 9]⟩

/-- An `Image`-layout header with a `ThemeCBCK` body. -/
def c1CbckHeader : Header :=
  ⟨1, 0, 0, 0, 0, .Data, 0,
   ⟨0, .Image, [77, 121, 84, 101, 120, 116] ++ List.replicate 122 0⟩,
   ⟨0, 1, 0, 22⟩, [], .ThemeCBCK 1 .PaletteImg 0 0 0 0 0 []⟩

/-- A tiny quantized image: two palette entries and one data word `0x0001`
(high byte 0 → first pixel from entry 0, low byte 1 → second from entry 1). -/
def demoQuantImage : QuantizedImage :=
  ⟨1, 2, [0x11223344, 0xAABBCCDD], [1]⟩

/-- A `Paths` block with `is_leaf = 0` (an internal node), one pair
`(index0 = 5, index1 = 7)`, serialized big-endian. -/
def c6PathsBytes : List Nat :=
  [0, 0, 0, 1, 0, 0, 0, 0, 0, 0, 0, 0, 0, 0, 0, 5, 0, 0, 0, 7]

/-- Block table for the `Paths` demo. -/
def c6Storage : List BlockRange := [⟨0, 20⟩]

/-- Tree record pointing at the demo `Paths` block. -/
def c6Tree : Tree := ⟨1, 0, 1024, 1, 0⟩

/-- `MLEC` body whose `KCBC` magic sits after the u32 field following the
compression field (the position the parser actually checks), and whose
bytes at offset 12 are *not* `KCBC`. -/
def c5NestedBytes : List Nat :=
  mlecMagic ++ le32 1 ++ le32 0 ++ le32 0 ++ kcbcMagic ++ le32 0 ++ le32 0
    ++ le32 0 ++ le32 0

/-- `MLEC` body with no `KCBC` frame: plain theme payload of two bytes. -/
def c5PlainBytes : List Nat :=
  mlecMagic ++ le32 1 ++ le32 0 ++ le32 2 ++ [9, 9]

/-- A `CarHeader` with a zero storage timestamp. -/
def c8ZeroHeader : CarHeader :=
  ⟨0x42474452, 498, 15, 0, 1, [], [], [], 0, 2, 1, 1⟩

/-- A `CarHeader` with a nonzero storage timestamp. -/
def c8StampedHeader : CarHeader :=
  ⟨0x42474452, 498, 15, 1539543253, 1, [], [], [], 0, 2, 1, 1⟩

/-- LZFSE-decompressed bytes of a tiny 1×2 quantized palette image:
magic `0xCAFEF00D`, version 1, two palette entries, one data word. -/
def qDemoBytes : List Nat :=
  [0x0D, 0xF0, 0xFE, 0xCA] ++ le32 1 ++ le16 2 ++ le32 0x11223344
    ++ le32 0xAABBCCDD ++ le16 1

/-- An `Image`-layout header (1×2) with a `PaletteImg` theme body. -/
def c1PaletteHeader : Header :=
  ⟨1, 0, 1, 2, 0, .ARGB, 1,
   ⟨0, .Image, [77, 121, 84, 101, 120, 116] ++ List.replicate 122 0⟩,
   ⟨0, 1, 0, 30⟩, [], .Theme 1 .PaletteImg 3 [7, 7, 7]⟩

/-- An LZFSE collaborator stub that decodes the palette body above. -/
def lzDemo (_ : List Nat) : Option (List Nat) := some qDemoBytes

/-! ## Theorems -/

/-- The `SizeOnDisk` field produced by `from_csi_header` (u32 arithmetic). -/
theorem from_csi_header_size_on_disk (csi : Header) (fk : Option (List Nat))
    (rkv : List (AttributeType × Nat)) (sha : List Nat)
    (app : List (List Nat × Nat)) :
    (AssetUtilEntry.from_csi_header csi fk rkv sha app).size_on_disk
      = some ((184 + csi.csibitmaplist.tlv_length
               + csi.csibitmaplist.rendition_length) % 4294967296) := rfl

/-- The `Scale` field produced by `from_csi_header`. -/
theorem from_csi_header_scale (csi : Header) (fk : Option (List Nat))
    (rkv : List (AttributeType × Nat)) (sha : List Nat)
    (app : List (List Nat × Nat)) :
    (AssetUtilEntry.from_csi_header csi fk rkv sha app).scale
      = some (if csi.scale_factor = 0 then 1 else csi.scale_factor / 100) := by
  unfold AssetUtilEntry.from_csi_header
  by_cases h : csi.scale_factor = 0 <;> simp [h]

/-- Claim C3: every rendition row of the inventory reports
`SizeOnDisk = 184 + tlv_length + rendition_length` (u32 addition) taken from
its own CSI header. -/
theorem c3_size_on_disk_matches (st : CommonAssetStorage) :
    (entriesFromAssetStorage st).map (fun e => e.size_on_disk)
      = (st.imagedb.getD []).map (fun p =>
          some ((184 + p.2.csibitmaplist.tlv_length
                 + p.2.csibitmaplist.rendition_length) % 4294967296)) := by
  unfold entriesFromAssetStorage
  cases st.imagedb with
  | none => rfl
  | some db =>
      simp only [Option.getD_some, List.map_map]
      exact List.map_congr_left (fun p _ => from_csi_header_size_on_disk ..)

/-- Claim C9: every rendition row of the inventory reports
`Scale = scale_factor / 100`, or `1` when `scale_factor` is zero. -/
theorem c9_scale_matches (st : CommonAssetStorage) :
    (entriesFromAssetStorage st).map (fun e => e.scale)
      = (st.imagedb.getD []).map (fun p =>
          some (if p.2.scale_factor = 0 then 1 else p.2.scale_factor / 100)) := by
  unfold entriesFromAssetStorage
  cases st.imagedb with
  | none => rfl
  | some db =>
      simp only [Option.getD_some, List.map_map]
      exact List.map_congr_left (fun p _ => from_csi_header_scale ..)

/-- Claim C8: a zero `storage_timestamp` is replaced by the file's
modification time, a nonzero one is reported unchanged; the repair is a
total function, so the condition never surfaces as an error. -/
theorem c8_timestamp_repair (h : CarHeader) (t : Nat) :
    (h.storage_timestamp = 0 → (repairStorageTimestamp h t).storage_timestamp = t)
    ∧ (h.storage_timestamp ≠ 0 → repairStorageTimestamp h t = h) := by
  constructor
  · intro h0
    simp [repairStorageTimestamp, h0]
  · intro h0
    simp [repairStorageTimestamp, h0]

/-- Witness for C8 at concrete headers. -/
theorem c8_timestamp_repair_witness :
    (repairStorageTimestamp c8ZeroHeader 99).storage_timestamp = 99
    ∧ repairStorageTimestamp c8StampedHeader 99 = c8StampedHeader :=
  ⟨(c8_timestamp_repair c8ZeroHeader 99).1 rfl,
   (c8_timestamp_repair c8StampedHeader 99).2 (by decide)⟩

/-- Counterexample to claim C7: the color-space accessor does not handle a
low byte of 14 — `coregraphics::ColorSpace` has no variant with
discriminant 14, so `FromPrimitive::from_u32(14).unwrap()` panics
(modelled by `none`), while the claim promises `Unknown` without failure. -/
theorem c7_counterexample : ColorFlags.color_space 14 = none := rfl

/-- Claim C7 as amended: low bytes 0..=5 decode to the six declared color
spaces; every other low byte (14 included) panics the accessor. -/
theorem c7_color_space_amended :
    (∀ w : Nat, w % 256 = 0 → ColorFlags.color_space w = some .SRGB)
    ∧ (∀ w : Nat, w % 256 = 1 → ColorFlags.color_space w = some .GrayGamma2_2)
    ∧ (∀ w : Nat, w % 256 = 2 → ColorFlags.color_space w = some .DisplayP3)
    ∧ (∀ w : Nat, w % 256 = 3 → ColorFlags.color_space w = some .ExtendedRangeSRGB)
    ∧ (∀ w : Nat, w % 256 = 4 → ColorFlags.color_space w = some .ExtendedLinearSRGB)
    ∧ (∀ w : Nat, w % 256 = 5 → ColorFlags.color_space w = some .ExtendedGray)
    ∧ (∀ w : Nat, 6 ≤ w % 256 → ColorFlags.color_space w = none) := by
  refine ⟨?_, ?_, ?_, ?_, ?_, ?_, ?_⟩ <;> intro w hw
  case _ => simp [ColorFlags.color_space, hw, ColorSpace.ofNat?]
  case _ => simp [ColorFlags.color_space, hw, ColorSpace.ofNat?]
  case _ => simp [ColorFlags.color_space, hw, ColorSpace.ofNat?]
  case _ => simp [ColorFlags.color_space, hw, ColorSpace.ofNat?]
  case _ => simp [ColorFlags.color_space, hw, ColorSpace.ofNat?]
  case _ => simp [ColorFlags.color_space, hw, ColorSpace.ofNat?]
  case _ =>
    unfold ColorFlags.color_space ColorSpace.ofNat?
    split <;> first | rfl | omega

/-- Witness for the amended C7 at concrete flag words. -/
theorem c7_color_space_amended_witness :
    ColorFlags.color_space 256 = some .SRGB
    ∧ ColorFlags.color_space 257 = some .GrayGamma2_2
    ∧ ColorFlags.color_space 258 = some .DisplayP3
    ∧ ColorFlags.color_space 259 = some .ExtendedRangeSRGB
    ∧ ColorFlags.color_space 260 = some .ExtendedLinearSRGB
    ∧ ColorFlags.color_space 261 = some .ExtendedGray
    ∧ ColorFlags.color_space 270 = none :=
  ⟨c7_color_space_amended.1 256 rfl,
   c7_color_space_amended.2.1 257 rfl,
   c7_color_space_amended.2.2.1 258 rfl,
   c7_color_space_amended.2.2.2.1 259 rfl,
   c7_color_space_amended.2.2.2.2.1 260 rfl,
   c7_color_space_amended.2.2.2.2.2.1 261 rfl,
   c7_color_space_amended.2.2.2.2.2.2 270 (by decide)⟩

/-- Counterexample to claim C6: a `Paths` block with `is_leaf = 0` (an
internal node); `Tree::items` still yields the `(index1, index0)` pairs and
raises no error — there is no `is_leaf` check nor any `LayoutError` in the
code. -/
theorem c6_counterexample :
    parsePaths c6PathsBytes = some (⟨0, 1, 0, 0, [⟨5, 7⟩]⟩, [])
    ∧ Tree.items c6Storage c6PathsBytes c6Tree = some [(7, 5)] := by
  constructor
  · rfl
  · rfl

/-- Claim C6 as amended: `Tree::items` reads the `Paths` block of the tree
and yields its pairs as `(index1, index0)` whatever the value of `is_leaf`;
internal nodes are not detected and no error is surfaced. -/
theorem c6_items_amended (storage : List BlockRange) (file : List Nat)
    (t : Tree) (range : BlockRange) (p : Paths) (rest : List Nat)
    (h1 : storage[t.path_block_id]? = some range)
    (h2 : parsePaths (file.drop range.address) = some (p, rest)) :
    Tree.items storage file t
      = some (p.indices.map (fun i => (i.index1, i.index0))) := by
  unfold Tree.items
  rw [h1]
  simp [h2]

/-- Witness for the amended C6 at the concrete internal-node input. -/
theorem c6_items_amended_witness :
    Tree.items c6Storage c6PathsBytes c6Tree
      = some ([PathIndices.mk 5 7].map (fun i => (i.index1, i.index0))) :=
  c6_items_amended c6Storage c6PathsBytes c6Tree ⟨0, 20⟩ ⟨0, 1, 0, 0, [⟨5, 7⟩]⟩ []
    rfl rfl

/-- `Option.bind` on a present value (helper). -/
theorem someBind {α β : Type} (a : α) (f : α → Option β) :
    (some a).bind f = f a := rfl

/-- `Option.bind` on an absent value (helper). -/
theorem noneBind {α β : Type} (f : α → Option β) :
    (none : Option α).bind f = none := rfl

/-- `Option.or` with an absent first argument (helper). -/
theorem orNoneL {α : Type} (x : Option α) : Option.or none x = x := rfl

/-- Decoding `le32 v` returns `v` reduced mod 2^32 and the remaining bytes. -/
theorem readU32le_le32 (v : Nat) (rest : List Nat) :
    readU32le (le32 v ++ rest) = some (v % 4294967296, rest) := by
  simp only [le32, List.cons_append, List.nil_append, readU32le,
    Option.some.injEq, Prod.mk.injEq, and_true]
  omega

/-- A magic match consumes exactly its own bytes. -/
theorem expectBytes_self (ms rest : List Nat) :
    expectBytes ms (ms ++ rest) = some rest := by
  induction ms with
  | nil => rfl
  | cons m ms ih => simp [expectBytes, ih]

/-- A magic match fails when the head bytes differ from the magic. -/
theorem expectBytes_take_ne (ms l : List Nat) (h : l.take ms.length ≠ ms) :
    expectBytes ms l = none := by
  induction ms generalizing l with
  | nil => simp at h
  | cons m ms ih =>
      cases l with
      | nil => rfl
      | cons b bs =>
          by_cases hb : b = m
          · subst hb
            simp only [List.length_cons, List.take_succ_cons, ne_eq,
              List.cons.injEq, true_and] at h
            simp [expectBytes, ih bs h]
          · simp [expectBytes, hb]

/-- Reading `n` bytes succeeds with the exact split when enough remain. -/
theorem readBytes_exact (n : Nat) (l : List Nat) (h : n ≤ l.length) :
    readBytes n l = some (l.take n, l.drop n) := by
  simp [readBytes, h]

/-- Reading exactly the length of a prefix returns that prefix. -/
theorem readBytes_append (data rest : List Nat) :
    readBytes data.length (data ++ rest) = some (data, rest) := by
  rw [readBytes_exact _ _ (by simp)]
  simp

/-- Compression-type discriminants round-trip through u32 encoding. -/
theorem ofNat?_code_mod (c : CompressionType) :
    CompressionType.ofNat? (CompressionType.code c % 4294967296) = some c := by
  cases c <;> rfl

/-- The head of an `MLEC`-tagged stream is not the `RLOC` magic. -/
theorem parseColorV_mlec (r : List Nat) :
    parseColorV (mlecMagic ++ r) = none := by
  unfold parseColorV
  rw [expectBytes_take_ne rlocMagic _ (by simp [mlecMagic, rlocMagic])]
  rfl

/-- The head of an `MLEC`-tagged stream is not the `DWAR` magic. -/
theorem parseRawDataV_mlec (r : List Nat) :
    parseRawDataV (mlecMagic ++ r) = none := by
  unfold parseRawDataV
  rw [expectBytes_take_ne dwarMagic _ (by simp [mlecMagic, dwarMagic])]
  rfl

/-- Counterexample to claim C5: a body whose `KCBC` magic sits at offset 16
(after the u32 field following the compression field) while offset 12 does
not hold `KCBC`. The claim as stated predicts fallback to the plain theme
interpretation; the parser returns the nested `ThemeCBCK` form. -/
theorem c5_counterexample :
    RenditionRead c5NestedBytes
      = some (.ThemeCBCK 1 .Uncompressed 0 0 0 0 0 [], [])
    ∧ (c5NestedBytes.drop 12).take 4 ≠ kcbcMagic
    ∧ RenditionRead c5NestedBytes
        ≠ some (.Theme 1 .Uncompressed 0 [],
                kcbcMagic ++ le32 0 ++ le32 0 ++ le32 0 ++ le32 0) := by
  refine ⟨rfl, by decide, by decide⟩

/-- Claim C5 as amended: for an `MLEC` body the nested interpretation is
attempted first, expecting the `KCBC` magic after the u32 field that
follows the compression field (body offset 16, not 12); the parser falls
back to the plain theme interpretation exactly when the magic is absent at
that offset. -/
theorem c5_mlec_fallback_amended :
    (∀ (v : Nat) (c : CompressionType) (x a b e n : Nat) (data rest : List Nat),
      v < 4294967296 → x < 4294967296 → a < 4294967296 → b < 4294967296 →
      e < 4294967296 → n = data.length → data.length < 4294967296 →
      RenditionRead (mlecMagic ++ le32 v ++ le32 (CompressionType.code c)
          ++ le32 x ++ kcbcMagic ++ le32 a ++ le32 b ++ le32 e ++ le32 n
          ++ data ++ rest)
        = some (.ThemeCBCK v c x a b e n data, rest))
    ∧ (∀ (v : Nat) (c : CompressionType) (x : Nat) (rest : List Nat),
      v < 4294967296 → x < 4294967296 → rest.take 4 ≠ kcbcMagic →
      x ≤ rest.length →
      RenditionRead (mlecMagic ++ le32 v ++ le32 (CompressionType.code c)
          ++ le32 x ++ rest)
        = some (.Theme v c x (rest.take x), rest.drop x)) := by
  constructor
  · intro v c x a b e n data rest hv hx ha hb he hn hd
    subst hn
    simp only [List.append_assoc]
    unfold RenditionRead
    rw [parseColorV_mlec, parseRawDataV_mlec, orNoneL, orNoneL]
    unfold parseThemeCBCKV
    simp only [bind, expectBytes_self, readU32le_le32, ofNat?_code_mod,
      someBind, Nat.mod_eq_of_lt hv, Nat.mod_eq_of_lt hx, Nat.mod_eq_of_lt ha,
      Nat.mod_eq_of_lt hb, Nat.mod_eq_of_lt he, Nat.mod_eq_of_lt hd,
      readBytes_append]
    rfl
  · intro v c x rest hv hx hk hxr
    simp only [List.append_assoc]
    unfold RenditionRead
    rw [parseColorV_mlec, parseRawDataV_mlec, orNoneL, orNoneL]
    have hcbck : parseThemeCBCKV (mlecMagic ++ (le32 v
        ++ (le32 (CompressionType.code c) ++ (le32 x ++ rest)))) = none := by
      unfold parseThemeCBCKV
      simp only [bind, expectBytes_self, readU32le_le32, ofNat?_code_mod,
        someBind]
      rw [expectBytes_take_ne kcbcMagic rest (by exact hk)]
      rfl
    rw [hcbck, orNoneL]
    unfold parseThemeV
    simp only [bind, expectBytes_self, readU32le_le32, ofNat?_code_mod,
      someBind, Nat.mod_eq_of_lt hv, Nat.mod_eq_of_lt hx,
      readBytes_exact x rest hxr]
    rfl

/-- Witness for the amended C5: both branches at concrete bodies. -/
theorem c5_mlec_fallback_amended_witness :
    RenditionRead c5NestedBytes
      = some (.ThemeCBCK 1 .Uncompressed 0 0 0 0 0 [], [])
    ∧ RenditionRead c5PlainBytes = some (.Theme 1 .Uncompressed 2 [9, 9], []) := by
  constructor
  · have h := c5_mlec_fallback_amended.1 1 .Uncompressed 0 0 0 0 0 [] []
      (by decide) (by decide) (by decide) (by decide) (by decide) rfl (by decide)
    exact h
  · have h := c5_mlec_fallback_amended.2 1 .Uncompressed 2 [9, 9]
      (by decide) (by decide) (by decide) (by decide)
    exact h

/-- Counterexample to claim C1: a `Data`-layout CSI record with a `RAWD`
body. The claim says extraction writes `raw_bytes` verbatim; `Header::extract`
matches only the `Image` layout and returns `Ok(())` for `Data`, writing no
file and emitting no warning. -/
theorem c1_counterexample :
    Header.extract lzDemo c1DataHeader = some .skipped
    ∧ Header.extract lzDemo c1DataHeader
        ≠ some (.wrote (parsePaddedString c1DataHeader.csimetadata.name)
                (.raw [1, 2, 3, 4, 5])) := by
  refine ⟨rfl, by decide⟩

/-- Claim C1 as amended: `extract` writes a file only for the `Image`
layout — `RAWD` bodies verbatim and plain `MLEC` bodies with `PaletteImg`
compression as the decoded PNG; other `Image` bodies return an error (the
caller warns and skips); every non-`Image` layout returns `Ok(())` silently,
writing nothing. -/
theorem c1_extract_amended :
    (∀ (lz : List Nat → Option (List Nat)) (hd : Header),
      hd.csimetadata.layout ≠ .Image → Header.extract lz hd = some .skipped)
    ∧ (∀ (lz : List Nat → Option (List Nat)) (hd : Header) (v n : Nat)
        (raw : List Nat),
      hd.csimetadata.layout = .Image → hd.rendition_data = .RawData v n raw →
      Header.extract lz hd
        = some (.wrote (parsePaddedString hd.csimetadata.name) (.raw raw)))
    ∧ (∀ (lz : List Nat → Option (List Nat)) (hd : Header) (v n : Nat)
        (raw dec : List Nat) (qi : QuantizedImage) (qrest buf : List Nat),
      hd.csimetadata.layout = .Image →
      hd.rendition_data = .Theme v .PaletteImg n raw →
      lz raw = some dec →
      parseQuantizedImage hd.width hd.height dec = some (qi, qrest) →
      quantImageExtract hd.width hd.height qi = some buf →
      Header.extract lz hd
        = some (.wrote (parsePaddedString hd.csimetadata.name)
                (.png hd.width hd.height buf)))
    ∧ (∀ (lz : List Nat → Option (List Nat)) (hd : Header) (v : Nat)
        (c : CompressionType) (n : Nat) (raw : List Nat),
      hd.csimetadata.layout = .Image → hd.rendition_data = .Theme v c n raw →
      c ≠ .PaletteImg → Header.extract lz hd = some .errUnhandledCompression)
    ∧ (∀ (lz : List Nat → Option (List Nat)) (hd : Header),
      hd.csimetadata.layout = .Image →
      (∀ (v n : Nat) (raw : List Nat), hd.rendition_data ≠ .RawData v n raw) →
      (∀ (v : Nat) (c : CompressionType) (n : Nat) (raw : List Nat),
        hd.rendition_data ≠ .Theme v c n raw) →
      Header.extract lz hd = some .errUnhandledImageType) := by
  refine ⟨?_, ?_, ?_, ?_, ?_⟩
  · intro lz hd hne
    cases hl : hd.csimetadata.layout <;>
      first
      | exact absurd hl hne
      | simp [Header.extract, hl]
  · intro lz hd v n raw hl hr
    simp [Header.extract, hl, hr]
  · intro lz hd v n raw dec qi qrest buf hl hr hlz hqi hbuf
    simp [Header.extract, hl, hr, hlz, hqi, hbuf]
  · intro lz hd v c n raw hl hr hc
    cases c <;>
      first
      | exact absurd rfl hc
      | simp [Header.extract, hl, hr]
  · intro lz hd hl hnr hnt
    cases hr : hd.rendition_data
    case RawData v n raw => exact absurd hr (hnr v n raw)
    case Theme v c n raw => exact absurd hr (hnt v c n raw)
    all_goals simp [Header.extract, hl, hr]

/-- Witness for the amended C1: each branch at a concrete header. -/
theorem c1_extract_amended_witness :
    Header.extract lzDemo c1DataHeader = some .skipped
    ∧ Header.extract lzDemo c1ImageHeader
        = some (.wrote (parsePaddedString c1ImageHeader.csimetadata.name)
                (.raw [1, 2, 3, 4, 5]))
    ∧ Header.extract lzDemo c1PaletteHeader
        = some (.wrote (parsePaddedString c1PaletteHeader.csimetadata.name)
                (.png 1 2 [51, 34, 17, 68, 204, 187, 170, 221]))
    ∧ Header.extract lzDemo c1ThemeHeader = some .errUnhandledCompression
    ∧ Header.extract lzDemo c1CbckHeader = some .errUnhandledImageType := by
  refine ⟨?_, ?_, ?_, ?_, ?_⟩
  · exact c1_extract_amended.1 lzDemo c1DataHeader (by decide)
  · exact c1_extract_amended.2.1 lzDemo c1ImageHeader 1 5 [1, 2, 3, 4, 5] rfl rfl
  · exact c1_extract_amended.2.2.1 lzDemo c1PaletteHeader 1 3 [7, 7, 7]
      qDemoBytes demoQuantImage [] [51, 34, 17, 68, 204, 187, 170, 221]
      rfl rfl rfl (by decide) (by decide)
  · exact c1_extract_amended.2.2.2.1 lzDemo c1ThemeHeader 1 .LZFSE 2 [9, 9]
      rfl rfl (by decide)
  · exact c1_extract_amended.2.2.2.2 lzDemo c1CbckHeader rfl
      (by intro v n raw; simp [c1CbckHeader])
      (by intro v c n raw; simp [c1CbckHeader])

/-- Counterexample to claim C2: a catalog whose `RENDITIONS` value block
declares length 8 while the CSI record at that address spans
`184 + tlv_length + rendition_length = 196` bytes. The digest is computed
over the 8 declared bytes, not over the 196 bytes the claim specifies (the
hash collaborator is instantiated with a length-recording function to
separate the two inputs). -/
theorem c2_counterexample :
    shaDigestForIndex lenSha demoStorage demoFile demoIdx = some (demoKey, [8])
    ∧ parseHeader (demoFile.drop 36) = some (demoHeader, [])
    ∧ 184 + demoHeader.csibitmaplist.tlv_length
        + demoHeader.csibitmaplist.rendition_length = 196
    ∧ lenSha (sliceAt demoFile 36 196) = [196]
    ∧ ([8] : List Nat) ≠ [196] := by
  refine ⟨by decide, by decide, rfl, by decide, by decide⟩

/-- Claim C2 as amended: the stored digest is the hash of the value block's
bytes as declared by the block table — `length` bytes from `address`; when
the declared length equals `184 + tlv_length + rendition_length` of the CSI
record parsed at that address, this is exactly the byte count of the claim.
The report renders the digest as uppercase hexadecimal. -/
theorem c2_sha_amended :
    (∀ (sha : List Nat → List Nat) (storage : List BlockRange)
       (file : List Nat) (idx : PathIndices) (key : RKey) (dig : List Nat),
      shaDigestForIndex sha storage file idx = some (key, dig) →
      ∃ vr : BlockRange, storage[idx.index0]? = some vr
        ∧ dig = sha (sliceAt file vr.address vr.length)
        ∧ (∀ (hd : Header) (rest : List Nat),
            parseHeader (file.drop vr.address) = some (hd, rest) →
            vr.length = 184 + hd.csibitmaplist.tlv_length
              + hd.csibitmaplist.rendition_length →
            dig = sha (sliceAt file vr.address
              (184 + hd.csibitmaplist.tlv_length
               + hd.csibitmaplist.rendition_length))))
    ∧ (∀ (csi : Header) (fk : Option (List Nat))
        (rkv : List (AttributeType × Nat)) (dig : List Nat)
        (app : List (List Nat × Nat)),
        (AssetUtilEntry.from_csi_header csi fk rkv dig app).sha1_digest
          = some (hexUpper dig)) := by
  constructor
  · intro sha storage file idx key dig h
    simp only [shaDigestForIndex, bind, Option.bind_eq_some,
      Option.some.injEq, Prod.mk.injEq] at h
    obtain ⟨kr, hkr, kp, hkp, rest⟩ := h
    obtain ⟨k1, k2⟩ := kp
    obtain ⟨vr, hvr, val, hval, hkey, hdig⟩ := rest
    refine ⟨vr, hvr, ?_, ?_⟩
    · have hval' : val = sliceAt file vr.address vr.length := by
        unfold blockRead at hval
        split at hval
        · exact (Option.some.injEq _ _ ▸ hval).symm
        · exact absurd hval (by simp)
      rw [← hdig, hval']
    · intro hd hrest hp hlen
      have hval' : val = sliceAt file vr.address vr.length := by
        unfold blockRead at hval
        split at hval
        · exact (Option.some.injEq _ _ ▸ hval).symm
        · exact absurd hval (by simp)
      rw [← hdig, hval', hlen]
  · intro csi fk rkv dig app
    rfl

/-- Witness for the amended C2 at the matching-length block table. -/
theorem c2_sha_amended_witness :
    shaDigestForIndex lenSha demoStorageOk demoFile demoIdx
      = some (demoKey, [196])
    ∧ [196] = lenSha (sliceAt demoFile 36 196)
    ∧ (AssetUtilEntry.from_csi_header demoHeader none [] [171] []).sha1_digest
        = some (hexUpper [171]) := by
  have h := c2_sha_amended.1 lenSha demoStorageOk demoFile demoIdx demoKey [196]
    (by decide)
  obtain ⟨vr, hvr, hdig, hcond⟩ := h
  have hv : vr = ⟨36, 196⟩ := by
    rw [show demoStorageOk[demoIdx.index0]?
        = some (⟨36, 196⟩ : BlockRange) from rfl] at hvr
    injection hvr with h'
    exact h'.symm
  refine ⟨by decide, ?_, c2_sha_amended.2 demoHeader none [] [171] []⟩
  rw [hv] at hdig
  simpa using hdig

/-- `lexCompare` returns `eq` exactly on equal lists. -/
theorem lexCompare_eq_iff (a b : List Nat) : lexCompare a b = .eq ↔ a = b := by
  induction a generalizing b with
  | nil => cases b <;> simp [lexCompare]
  | cons x xs ih =>
      cases b with
      | nil => simp [lexCompare]
      | cons y ys =>
          rcases Nat.lt_trichotomy x y with h | h | h
          · simp [lexCompare, h, Nat.ne_of_lt h]
          · subst h
            simp [lexCompare, ih]
          · simp [lexCompare, h, Nat.lt_asymm h, (Nat.ne_of_lt h).symm]

/-- `lexCompare` flips `gt` to `lt` under argument swap. -/
theorem lexCompare_gt_iff (a b : List Nat) :
    lexCompare a b = .gt ↔ lexCompare b a = .lt := by
  induction a generalizing b with
  | nil => cases b <;> simp [lexCompare]
  | cons x xs ih =>
      cases b with
      | nil => simp [lexCompare]
      | cons y ys =>
          rcases Nat.lt_trichotomy x y with h | h | h
          · simp [lexCompare, h, Nat.lt_asymm h]
          · subst h
            simp [lexCompare, ih]
          · simp [lexCompare, h, Nat.lt_asymm h]

/-- `lexCompare`'s strict order is transitive. -/
theorem lexCompare_lt_trans (a b c : List Nat)
    (hab : lexCompare a b = .lt) (hbc : lexCompare b c = .lt) :
    lexCompare a c = .lt := by
  induction a generalizing b c with
  | nil =>
      cases c with
      | nil =>
          cases b with
          | nil => exact hbc
          | cons y ys => simp [lexCompare] at hbc
      | cons z zs => simp [lexCompare]
  | cons x xs ih =>
      cases b with
      | nil => simp [lexCompare] at hab
      | cons y ys =>
          cases c with
          | nil => simp [lexCompare] at hbc
          | cons z zs =>
              rcases Nat.lt_trichotomy x y with h1 | h1 | h1
              · rcases Nat.lt_trichotomy y z with h2 | h2 | h2
                · simp [lexCompare, Nat.lt_trans h1 h2]
                · subst h2
                  simp [lexCompare, h1]
                · simp [lexCompare, h2, Nat.lt_asymm h2] at hbc
              · subst h1
                rcases Nat.lt_trichotomy x z with h2 | h2 | h2
                · simp [lexCompare, h2]
                · subst h2
                  simp only [lexCompare, Nat.lt_irrefl, if_false] at hab hbc ⊢
                  exact ih ys zs hab hbc
                · simp [lexCompare, h2, Nat.lt_asymm h2] at hbc
              · simp [lexCompare, h1, Nat.lt_asymm h1] at hab

/-- Members of `btInsert m k v` are the new binding or old members. -/
theorem mem_btInsert {V : Type} (m : List (List Nat × V)) (k : List Nat)
    (v : V) (q : List Nat × V) (hq : q ∈ btInsert m k v) :
    q = (k, v) ∨ q ∈ m := by
  induction m with
  | nil =>
      simp [btInsert] at hq
      exact Or.inl hq
  | cons p rest ih =>
      obtain ⟨k0, v0⟩ := p
      simp only [btInsert] at hq
      cases hc : lexCompare k k0 <;> rw [hc] at hq
      · simp only [List.mem_cons] at hq
        rcases hq with h | h | h
        · exact Or.inl h
        · exact Or.inr (by simp [h])
        · exact Or.inr (by simp [h])
      · simp only [List.mem_cons] at hq
        rcases hq with h | h
        · exact Or.inl h
        · exact Or.inr (by simp [h])
      · simp only [List.mem_cons] at hq
        rcases hq with h | h
        · exact Or.inr (by simp [h])
        · rcases ih h with h' | h'
          · exact Or.inl h'
          · exact Or.inr (by simp [h'])

/-- `btInsert` preserves strict sortedness by key. -/
theorem pairwise_btInsert {V : Type} (m : List (List Nat × V)) (k : List Nat)
    (v : V) (hm : m.Pairwise (fun p q => lexCompare p.1 q.1 = .lt)) :
    (btInsert m k v).Pairwise (fun p q => lexCompare p.1 q.1 = .lt) := by
  induction m with
  | nil => simp [btInsert]
  | cons p rest ih =>
      obtain ⟨k0, v0⟩ := p
      rw [List.pairwise_cons] at hm
      obtain ⟨h0, hrest⟩ := hm
      simp only [btInsert]
      cases hc : lexCompare k k0
      · rw [List.pairwise_cons]
        constructor
        · intro q hq
          rcases List.mem_cons.mp hq with h | h
          · rw [h]
            exact hc
          · exact lexCompare_lt_trans _ _ _ hc (h0 q h)
        · rw [List.pairwise_cons]
          exact ⟨h0, hrest⟩
      · rw [List.pairwise_cons]
        have hk : k = k0 := (lexCompare_eq_iff k k0).mp hc
        subst hk
        exact ⟨h0, hrest⟩
      · rw [List.pairwise_cons]
        constructor
        · intro q hq
          rcases mem_btInsert rest k v q hq with h | h
          · rw [h]
            exact (lexCompare_gt_iff k k0).mp hc
          · exact h0 q h
        · exact ih hrest

/-- Lookup after `btInsert`: the new binding wins on its key, everything
else is unchanged. -/
theorem find_btInsert {V : Type} (m : List (List Nat × V)) (k k' : List Nat)
    (v : V) :
    btreeFind (btInsert m k v) k'
      = if k' = k then some v else btreeFind m k' := by
  induction m with
  | nil =>
      by_cases h : k' = k
      · subst h
        simp [btInsert, btreeFind]
      · simp [btInsert, btreeFind, List.find?, h, Ne.symm h]
  | cons p rest ih =>
      obtain ⟨k0, v0⟩ := p
      simp only [btInsert]
      cases hc : lexCompare k k0
      case lt =>
        by_cases h : k' = k
        · subst h
          simp [btreeFind, List.find?]
        · rw [if_neg h]
          unfold btreeFind
          rw [List.find?_cons_of_neg _ (by simp [Ne.symm h])]
      case eq =>
        have hk : k = k0 := (lexCompare_eq_iff k k0).mp hc
        subst hk
        by_cases h : k' = k
        · subst h
          simp [btreeFind, List.find?]
        · rw [if_neg h]
          unfold btreeFind
          rw [List.find?_cons_of_neg _ (by simp [Ne.symm h]),
              List.find?_cons_of_neg _ (by simp [Ne.symm h])]
      case gt =>
        have hk : k ≠ k0 := by
          intro e
          rw [e, (lexCompare_eq_iff k0 k0).mpr rfl] at hc
          cases hc
        by_cases h : k' = k0
        · subst h
          rw [if_neg (fun e => hk e.symm)]
          unfold btreeFind
          rw [List.find?_cons_of_pos _ (by simp),
              List.find?_cons_of_pos _ (by simp)]
        · unfold btreeFind
          rw [List.find?_cons_of_neg _ (by simp [Ne.symm h])]
          have ih' := ih
          unfold btreeFind at ih'
          rw [ih']
          by_cases h2 : k' = k
          · simp [h2]
          · rw [if_neg h2, if_neg h2,
                List.find?_cons_of_neg _ (by simp [Ne.symm h])]

/-- Lookup in a fold of inserts: the last binding in insertion order wins,
falling back to the accumulator. -/
theorem find_btreeCollectAux {V : Type} (l : List (List Nat × V))
    (m : List (List Nat × V)) (k : List Nat) :
    btreeFind (l.foldl (fun m p => btInsert m p.1 p.2) m) k
      = ((l.reverse.find? (fun p => p.1 = k)).map (fun p => p.2)).or
          (btreeFind m k) := by
  induction l generalizing m with
  | nil => simp
  | cons p rest ih =>
      simp only [List.foldl_cons, List.reverse_cons]
      rw [ih, List.find?_append]
      cases hf : rest.reverse.find? (fun q => decide (q.1 = k)) with
      | some a => simp [hf]
      | none =>
          simp only [hf, Option.none_orElse, Option.map_none, orNoneL]
          rw [find_btInsert]
          by_cases h : k = p.1
          · subst h
            simp [List.find?]
          · rw [if_neg h]
            have : (List.find? (fun q => decide (q.1 = k)) [p]) = none := by
              simp [List.find?, Ne.symm h]
            simp [this]

/-- A fold of inserts over a sorted accumulator stays sorted. -/
theorem pairwise_btreeCollectAux {V : Type} (l : List (List Nat × V))
    (m : List (List Nat × V))
    (hm : m.Pairwise (fun p q => lexCompare p.1 q.1 = .lt)) :
    (l.foldl (fun m p => btInsert m p.1 p.2) m).Pairwise
      (fun p q => lexCompare p.1 q.1 = .lt) := by
  induction l generalizing m with
  | nil => exact hm
  | cons p rest ih =>
      simp only [List.foldl_cons]
      exact ih _ (pairwise_btInsert m p.1 p.2 hm)

/-- Claim C10: the rendition database keyed by the 36-byte key holds at most
one entry per key — looked up, a key maps to the value of its last
occurrence in `Paths` order, and the collected database has pairwise
distinct keys. -/
theorem c10_imagedb_dedup (entries : List (RKey × Header)) :
    List.Pairwise (fun p q => p.1 ≠ q.1) (imagedbOf entries)
    ∧ ∀ k : RKey, btreeFind (imagedbOf entries) k
        = (entries.reverse.find? (fun p => p.1 = k)).map (fun p => p.2) := by
  constructor
  · have h := pairwise_btreeCollectAux entries [] (by simp)
    refine h.imp ?_
    intro p q hpq e
    rw [e, (lexCompare_eq_iff q.1 q.1).mpr rfl] at hpq
    cases hpq
  · intro k
    have h := find_btreeCollectAux entries [] k
    simpa [btreeFind] using h

/-- A valid index read through `getElem?` agrees with `getD`. -/
theorem getOpt_getD (l : List Nat) (i : Nat) (h : i < l.length) :
    l[i]? = some (l.getD i 0) := by
  simp [List.getElem?_eq_getElem, List.getD_eq_getElem, h]

/-- `setAt` past a prefix acts on the suffix. -/
theorem setAt_append (pre suf : List Nat) (j x : Nat) :
    setAt (pre ++ suf) (pre.length + j) x
      = (setAt suf j x).map (fun l => pre ++ l) := by
  induction pre with
  | nil =>
      simp only [List.nil_append, List.length_nil, Nat.zero_add]
      cases setAt suf j x <;> simp
  | cons a pre ih =>
      have harith : (a :: pre).length + j = (pre.length + j) + 1 := by
        simp [Nat.add_right_comm]
      rw [List.cons_append, harith]
      show (setAt (pre ++ suf) (pre.length + j) x).map (fun l => a :: l)
        = (setAt suf j x).map (fun l => (a :: pre) ++ l)
      rw [ih]
      cases setAt suf j x <;> simp

/-- `setAt` at exactly the prefix length writes position 0 of the suffix. -/
theorem setAt_append_zero (pre suf : List Nat) (x : Nat) :
    setAt (pre ++ suf) pre.length x
      = (setAt suf 0 x).map (fun l => pre ++ l) := by
  have h := setAt_append pre suf 0 x
  rwa [Nat.add_zero] at h

/-- `setAt` positions 0–7 on an eight-element head (definitional). -/
theorem setAt8_0 (s0 s1 s2 s3 s4 s5 s6 s7 : Nat) (t : List Nat) (x : Nat) :
    setAt (s0 :: s1 :: s2 :: s3 :: s4 :: s5 :: s6 :: s7 :: t) 0 x
      = some (x :: s1 :: s2 :: s3 :: s4 :: s5 :: s6 :: s7 :: t) := rfl

/-- `setAt` at position 1 on an eight-element head. -/
theorem setAt8_1 (s0 s1 s2 s3 s4 s5 s6 s7 : Nat) (t : List Nat) (x : Nat) :
    setAt (s0 :: s1 :: s2 :: s3 :: s4 :: s5 :: s6 :: s7 :: t) 1 x
      = some (s0 :: x :: s2 :: s3 :: s4 :: s5 :: s6 :: s7 :: t) := rfl

/-- `setAt` at position 2 on an eight-element head. -/
theorem setAt8_2 (s0 s1 s2 s3 s4 s5 s6 s7 : Nat) (t : List Nat) (x : Nat) :
    setAt (s0 :: s1 :: s2 :: s3 :: s4 :: s5 :: s6 :: s7 :: t) 2 x
      = some (s0 :: s1 :: x :: s3 :: s4 :: s5 :: s6 :: s7 :: t) := rfl

/-- `setAt` at position 3 on an eight-element head. -/
theorem setAt8_3 (s0 s1 s2 s3 s4 s5 s6 s7 : Nat) (t : List Nat) (x : Nat) :
    setAt (s0 :: s1 :: s2 :: s3 :: s4 :: s5 :: s6 :: s7 :: t) 3 x
      = some (s0 :: s1 :: s2 :: x :: s4 :: s5 :: s6 :: s7 :: t) := rfl

/-- `setAt` at position 4 on an eight-element head. -/
theorem setAt8_4 (s0 s1 s2 s3 s4 s5 s6 s7 : Nat) (t : List Nat) (x : Nat) :
    setAt (s0 :: s1 :: s2 :: s3 :: s4 :: s5 :: s6 :: s7 :: t) 4 x
      = some (s0 :: s1 :: s2 :: s3 :: x :: s5 :: s6 :: s7 :: t) := rfl

/-- `setAt` at position 5 on an eight-element head. -/
theorem setAt8_5 (s0 s1 s2 s3 s4 s5 s6 s7 : Nat) (t : List Nat) (x : Nat) :
    setAt (s0 :: s1 :: s2 :: s3 :: s4 :: s5 :: s6 :: s7 :: t) 5 x
      = some (s0 :: s1 :: s2 :: s3 :: s4 :: x :: s6 :: s7 :: t) := rfl

/-- `setAt` at position 6 on an eight-element head. -/
theorem setAt8_6 (s0 s1 s2 s3 s4 s5 s6 s7 : Nat) (t : List Nat) (x : Nat) :
    setAt (s0 :: s1 :: s2 :: s3 :: s4 :: s5 :: s6 :: s7 :: t) 6 x
      = some (s0 :: s1 :: s2 :: s3 :: s4 :: s5 :: x :: s7 :: t) := rfl

/-- `setAt` at position 7 on an eight-element head. -/
theorem setAt8_7 (s0 s1 s2 s3 s4 s5 s6 s7 : Nat) (t : List Nat) (x : Nat) :
    setAt (s0 :: s1 :: s2 :: s3 :: s4 :: s5 :: s6 :: s7 :: t) 7 x
      = some (s0 :: s1 :: s2 :: s3 :: s4 :: s5 :: s6 :: x :: t) := rfl

/-- One step of the palette-expansion loop: the data word's two pixels are
written into the next eight buffer positions. -/
theorem quantLoop_cons (ct : List Nat) (v : Nat) (rest : List Nat) (i : Nat)
    (pre s : List Nat) (hpre : pre.length = 8 * i)
    (ha : v >>> 8 < ct.length) (hb : v &&& 255 < ct.length)
    (hs : 8 ≤ s.length) :
    quantLoop ct (v :: rest) i (pre ++ s)
      = quantLoop ct rest (i + 1)
          (pre ++ ([(ct.getD (v >>> 8) 0 >>> 8) &&& 255,
                    (ct.getD (v >>> 8) 0 >>> 16) &&& 255,
                    (ct.getD (v >>> 8) 0 >>> 24) &&& 255,
                    ct.getD (v >>> 8) 0 &&& 255,
                    (ct.getD (v &&& 255) 0 >>> 8) &&& 255,
                    (ct.getD (v &&& 255) 0 >>> 16) &&& 255,
                    (ct.getD (v &&& 255) 0 >>> 24) &&& 255,
                    ct.getD (v &&& 255) 0 &&& 255] ++ s.drop 8)) := by
  rcases s with _ | ⟨s0, s⟩
  · simp at hs
  rcases s with _ | ⟨s1, s⟩
  · simp at hs
  rcases s with _ | ⟨s2, s⟩
  · simp at hs
  rcases s with _ | ⟨s3, s⟩
  · simp at hs
  rcases s with _ | ⟨s4, s⟩
  · simp at hs
  rcases s with _ | ⟨s5, s⟩
  · simp at hs
  rcases s with _ | ⟨s6, s⟩
  · simp at hs
  rcases s with _ | ⟨s7, s⟩
  · simp at hs
  simp only [quantLoop, getOpt_getD ct _ ha, getOpt_getD ct _ hb]
  rw [← hpre]
  simp only [setAt_append_zero, setAt_append, setAt8_0, setAt8_1, setAt8_2,
    setAt8_3, setAt8_4, setAt8_5, setAt8_6, setAt8_7, Option.map_some,
    Option.map_some', someBind, Option.some_bind, List.drop_succ_cons,
    List.drop_zero, List.cons_append, List.nil_append]

/-- The palette-expansion loop fills the buffer left to right, two pixels
per data word, leaving any remaining suffix in place. -/
theorem quantLoop_spec (data ct : List Nat) :
    ∀ (i : Nat) (pre suf : List Nat), pre.length = 8 * i →
      8 * data.length ≤ suf.length →
      (∀ v ∈ data, v >>> 8 < ct.length ∧ v &&& 255 < ct.length) →
      quantLoop ct data i (pre ++ suf)
        = some (pre ++ (data.flatMap (fun v =>
            [(ct.getD (v >>> 8) 0 >>> 8) &&& 255,
             (ct.getD (v >>> 8) 0 >>> 16) &&& 255,
             (ct.getD (v >>> 8) 0 >>> 24) &&& 255,
             ct.getD (v >>> 8) 0 &&& 255,
             (ct.getD (v &&& 255) 0 >>> 8) &&& 255,
             (ct.getD (v &&& 255) 0 >>> 16) &&& 255,
             (ct.getD (v &&& 255) 0 >>> 24) &&& 255,
             ct.getD (v &&& 255) 0 &&& 255]))
            ++ suf.drop (8 * data.length)) := by
  induction data with
  | nil =>
      intro i pre suf h1 h2 h3
      simp [quantLoop]
  | cons v rest ih =>
      intro i pre suf h1 h2 h3
      simp only [List.length_cons] at h2
      have hbound := h3 v (List.mem_cons_self v rest)
      rw [quantLoop_cons ct v rest i pre suf h1 hbound.1 hbound.2 (by omega)]
      rw [← List.append_assoc]
      rw [ih (i + 1) _ (suf.drop 8) (by simp [h1, Nat.mul_add])
        (by simp only [List.length_drop]; omega)
        (fun w hw => h3 w (List.mem_cons_of_mem v hw))]
      simp only [List.flatMap_cons, List.drop_drop, List.append_assoc,
        List.length_cons]
      rw [show 8 * (rest.length + 1) = 8 + 8 * rest.length from by ring]

/-- Claim C4: under the parser's size invariants (`data` holds
`width*height/2` words, the table holds `color_count` entries), an even
pixel count and in-range palette indices, the palette expansion succeeds and
produces exactly `width*height*4` bytes: each source u16 contributes two
pixels in source order — the high byte indexes the first pixel's entry, the
low byte the second — and each pixel reads `R = byte1, G = byte2, B = byte3,
A = byte0` of the stored BGRA u32 entry. -/
theorem c4_palette_expand (width height : Nat) (q : QuantizedImage)
    (hsize : width * height * 4 < 4294967296)
    (heven : width * height % 2 = 0)
    (hdata : q.data.length = width * height / 2)
    (htab : q.color_table.length = q.color_count)
    (hidx : ∀ v ∈ q.data, v >>> 8 < q.color_count ∧ v &&& 255 < q.color_count) :
    quantImageExtract width height q
      = some (q.data.flatMap (fun v =>
          [(q.color_table.getD (v >>> 8) 0 >>> 8) &&& 255,
           (q.color_table.getD (v >>> 8) 0 >>> 16) &&& 255,
           (q.color_table.getD (v >>> 8) 0 >>> 24) &&& 255,
           q.color_table.getD (v >>> 8) 0 &&& 255,
           (q.color_table.getD (v &&& 255) 0 >>> 8) &&& 255,
           (q.color_table.getD (v &&& 255) 0 >>> 16) &&& 255,
           (q.color_table.getD (v &&& 255) 0 >>> 24) &&& 255,
           q.color_table.getD (v &&& 255) 0 &&& 255]))
    ∧ ∀ out, quantImageExtract width height q = some out →
        out.length = width * height * 4 := by
  have hwh : width * height < 4294967296 := by
    have hle : width * height ≤ width * height * 4 :=
      Nat.le_mul_of_pos_right _ (by norm_num)
    omega
  have e2 : u32mul (u32mul width height) 4 = width * height * 4 := by
    unfold u32mul
    rw [Nat.mod_eq_of_lt hwh, Nat.mod_eq_of_lt hsize]
  have hlen : 8 * q.data.length = width * height * 4 := by
    rw [hdata]
    omega
  have hmain : quantImageExtract width height q
      = some (q.data.flatMap (fun v =>
          [(q.color_table.getD (v >>> 8) 0 >>> 8) &&& 255,
           (q.color_table.getD (v >>> 8) 0 >>> 16) &&& 255,
           (q.color_table.getD (v >>> 8) 0 >>> 24) &&& 255,
           q.color_table.getD (v >>> 8) 0 &&& 255,
           (q.color_table.getD (v &&& 255) 0 >>> 8) &&& 255,
           (q.color_table.getD (v &&& 255) 0 >>> 16) &&& 255,
           (q.color_table.getD (v &&& 255) 0 >>> 24) &&& 255,
           q.color_table.getD (v &&& 255) 0 &&& 255])) := by
    unfold quantImageExtract
    rw [e2]
    have h := quantLoop_spec q.data q.color_table 0 []
      (List.replicate (width * height * 4) 0) (by simp)
      (by simp [hlen])
      (by
        intro v hv
        rw [htab]
        exact hidx v hv)
    rw [List.nil_append] at h
    rw [h, hlen]
    rw [show (width * height * 4)
        = (List.replicate (width * height * 4) (0 : Nat)).length from by simp]
    simp [List.drop_length]
  refine ⟨hmain, ?_⟩
  intro out hout
  rw [hmain] at hout
  injection hout with hout
  have flatlen : ∀ d : List Nat, (d.flatMap (fun v =>
      [(q.color_table.getD (v >>> 8) 0 >>> 8) &&& 255,
       (q.color_table.getD (v >>> 8) 0 >>> 16) &&& 255,
       (q.color_table.getD (v >>> 8) 0 >>> 24) &&& 255,
       q.color_table.getD (v >>> 8) 0 &&& 255,
       (q.color_table.getD (v &&& 255) 0 >>> 8) &&& 255,
       (q.color_table.getD (v &&& 255) 0 >>> 16) &&& 255,
       (q.color_table.getD (v &&& 255) 0 >>> 24) &&& 255,
       q.color_table.getD (v &&& 255) 0 &&& 255])).length = 8 * d.length := by
    intro d
    induction d with
    | nil => simp
    | cons a l ihl =>
        simp only [List.flatMap_cons, List.length_append, ihl,
          List.length_cons]
        simp
        omega
  rw [← hout, flatlen q.data, hlen]

/-- Witness for C4 at the 1×2 demo quantized image. -/
theorem c4_palette_expand_witness :
    quantImageExtract 1 2 demoQuantImage
      = some [51, 34, 17, 68, 204, 187, 170, 221]
    ∧ ([51, 34, 17, 68, 204, 187, 170, 221] : List Nat).length = 1 * 2 * 4 := by
  have h := c4_palette_expand 1 2 demoQuantImage (by decide) (by decide)
    (by decide) (by decide) (by decide)
  have h1 : quantImageExtract 1 2 demoQuantImage
      = some [51, 34, 17, 68, 204, 187, 170, 221] := by
    rw [h.1]
    rfl
  exact ⟨h1, h.2 _ h1⟩

end Carutil
